import Mathlib

/-!
# Verification of the DOLFINX mesh-topology engine and scalar assembly dispatcher

Shallow embedding of `cpp/dolfinx/mesh/Mesh.cpp` and
`cpp/dolfinx/fem/assemble_scalar_impl.h`.

Conventions of the embedding:
* entity indices (`std::int32_t` in the source) are modelled as `Nat`
  (they are non-negative array indices throughout the embedded code);
* the scalar type `T` of a form is an arbitrary `AddCommMonoid`;
* geometry coordinates (`double` in the source) are modelled as `Rat`:
  the embedded code only gathers and truncates coordinate rows, it performs
  no floating-point arithmetic on them;
* C++ functions that `throw` (and `assert`s that guard invariants, per the
  specification's error taxonomy) are embedded as `Except`-valued functions;
* mutation of the `Mesh`/`Topology` object is embedded as explicit state
  passing: an operation takes a state and returns the updated state.
-/

namespace DolfinX

/-- The `common::IndexMap` (consumed, not built, by this core): per-dimension
bookkeeping of owned and ghost entities. -/
structure IndexMap where
  size_local : Nat
  num_ghosts : Nat
  size_global : Nat
  block_size : Nat
deriving DecidableEq, Repr

/-- The `graph::AdjacencyList<std::int32_t>`: ordered mapping from a contiguous
integer domain to variable-length sequences of integer targets.  Row `i` is
`rows[i]`; out-of-range rows read as empty. -/
structure AdjacencyList where
  rows : List (List Nat)
deriving DecidableEq, Repr

/-- Embeds `AdjacencyList::links(i)`. -/
def AdjacencyList.links (a : AdjacencyList) (i : Nat) : List Nat :=
  a.rows.getD i []

/-- Embeds `AdjacencyList::num_links(i)`. -/
def AdjacencyList.num_links (a : AdjacencyList) (i : Nat) : Nat :=
  (a.links i).length

instance : Inhabited AdjacencyList := ⟨⟨[]⟩⟩

/-- The `mesh::Topology` state: per dimension an optional index map, per ordered
dimension pair an optional adjacency list (absence = "not yet computed"),
plus the orientation data and the interior-facet classification.
`facet_perms` is the `Eigen::Array<std::uint8_t, Dynamic, Dynamic>` of facet
permutation bytes, stored here column-by-column: entry `cell` of the outer
list is the list over local facet indices, so the C++ read
`perms(local_facet, cell)` is `(facet_perms[cell])[local_facet]`. -/
structure Topology where
  dim : Nat
  conn : Nat → Nat → Option AdjacencyList
  index_maps : Nat → Option IndexMap
  cell_perm_info : Option (List Nat)
  facet_perms : Option (List (List Nat))
  interior_facets : Option (List Bool)

/-- Embeds `Topology::set_connectivity(c, d0, d1)`. -/
def Topology.set_conn (s : Topology) (d0 d1 : Nat) (a : AdjacencyList) :
    Topology :=
  { s with conn := fun x y => if x = d0 ∧ y = d1 then some a else s.conn x y }

/-- Embeds `Topology::set_index_map(dim, index_map)`. -/
def Topology.set_index_map (s : Topology) (d : Nat) (m : IndexMap) :
    Topology :=
  { s with index_maps := fun x => if x = d then some m else s.index_maps x }

/-- Embeds `Topology::set_interior_facets(f)`. -/
def Topology.set_interior_facets (s : Topology) (f : List Bool) : Topology :=
  { s with interior_facets := some f }

/-- The `mesh::Geometry`: physical coordinates of geometry nodes (rows of `x`,
always 3 components in the source; we keep each row as a list) and the
coordinate adjacency list (cell → geometry node indices). -/
structure Geometry where
  gdim : Nat
  dofmap : AdjacencyList
  x : List (List Rat)

/-- The `mesh::Mesh`: composition of one Topology and one Geometry. -/
structure Mesh where
  topology : Topology
  geometry : Geometry

/-- Modelled from the spec: the external entity/connectivity/permutation
computation kernels of `mesh::TopologyComputation` and
`Topology::create_entity_permutations` (their sources are not part of this
repository snapshot; only their callers in `Mesh.cpp` are).  Per the spec,
`compute_entities` is "given (tdim,0) connectivity and a reference-cell
entity-definition table, produce (tdim,d) and (d,0) adjacency plus an Entity
Index Map", so `entitiesCore` is a function of the cell-vertex connectivity
and the requested dimension; the two adjacency results are kept optional
exactly as consumed by `Mesh.cpp` (`if (cell_entity) ...`), while the index
map is dereferenced unconditionally by `Mesh.cpp`'s return statement.
`connectivityCore` models `compute_connectivity`'s actual computation as a
function of the (d0,0) and (d1,0) connectivity; `permutationsCore` models
the permutation computation, which the spec states is computed "from the
local vertex numbering of each cell", i.e. from the cell-vertex
connectivity.  It returns the per-cell permutation bitmasks and the facet
permutation bytes. -/
structure TopologyComputation where
  entitiesCore :
    AdjacencyList → Nat → Option AdjacencyList × Option AdjacencyList × IndexMap
  connectivityCore :
    Option AdjacencyList → Option AdjacencyList →
      Option AdjacencyList × Option AdjacencyList
  permutationsCore : AdjacencyList → List Nat × List (List Nat)

/-- Embeds `Mesh::create_entities(dim)` (`Mesh.cpp:199-227`): if connectivity
`(dim, 0)` already exists, return the sentinel `-1` without touching the
state; otherwise run the entity computation and cache the `(tdim, dim)` and
`(dim, 0)` adjacency (each when produced) and the dimension-`dim` index map,
returning the local entity count. -/
def create_entities (tc : TopologyComputation) (s : Topology) (d : Nat) :
    Int × Topology :=
  if (s.conn d 0).isSome then (-1, s)
  else
    let r := tc.entitiesCore ((s.conn s.dim 0).getD default) d
    let s1 := match r.1 with
      | some a => s.set_conn s.dim d a
      | none => s
    let s2 := match r.2.1 with
      | some a => s1.set_conn d 0 a
      | none => s1
    let s3 := s2.set_index_map d r.2.2
    (Int.ofNat r.2.2.size_local, s3)

/-- Modelled from the spec: the caching guard of
`TopologyComputation::compute_connectivity` (not in this snapshot) — once
computed, cached connectivity is never recomputed (§3); if the `(d0,d1)`
adjacency already exists nothing new is produced, otherwise the
connectivity computation runs on the `(d0,0)` and `(d1,0)` connectivity. -/
def compute_connectivity (tc : TopologyComputation) (s : Topology)
    (d0 d1 : Nat) : Option AdjacencyList × Option AdjacencyList :=
  if (s.conn d0 d1).isSome then (none, none)
  else tc.connectivityCore (s.conn d0 0) (s.conn d1 0)

/-- Modelled from the spec: `mesh::compute_interior_facets` (not in this
snapshot) — "a facet is interior iff it has exactly two incident cells",
read off the facet→cell connectivity. -/
def compute_interior_facets (s : Topology) : List Bool :=
  match s.conn (s.dim - 1) s.dim with
  | some a => a.rows.map (fun r => r.length == 2)
  | none => []

/-- Embeds `Mesh::create_connectivity(d0, d1)` (`Mesh.cpp:229-267`): ensure the
entities at both dimensions exist, run the connectivity computation, attach
both produced adjacency lists, and when `(d0,d1) = (tdim-1, tdim)` also
recompute and store the interior-facet classification. -/
def create_connectivity (tc : TopologyComputation) (s : Topology)
    (d0 d1 : Nat) : Topology :=
  let sa := (create_entities tc s d0).2
  let sb := (create_entities tc sa d1).2
  let r := compute_connectivity tc sb d0 d1
  let sc := match r.1 with
    | some a => sb.set_conn d0 d1 a
    | none => sb
  let sd := match r.2 with
    | some a => sc.set_conn d1 d0 a
    | none => sc
  if d0 = sd.dim - 1 ∧ d1 = sd.dim then
    sd.set_interior_facets (compute_interior_facets sd)
  else sd

/-- Modelled from the spec: `Topology::create_entity_permutations` (not in
this snapshot) — "Must be idempotent and side-effect-free if already
computed"; otherwise computes `cell_permutation_info` and
`facet_permutations` from the local vertex numbering of each cell. -/
def topology_create_entity_permutations (tc : TopologyComputation)
    (s : Topology) : Topology :=
  if s.cell_perm_info.isSome then s
  else
    let r := tc.permutationsCore ((s.conn s.dim 0).getD default)
    { s with cell_perm_info := some r.1, facet_perms := some r.2 }

/-- Embeds `Mesh::create_entity_permutations()` (`Mesh.cpp:269-282`): create all
entities of dimension `< tdim`, then the permutation data. -/
def create_entity_permutations (tc : TopologyComputation) (s : Topology) :
    Topology :=
  topology_create_entity_permutations tc
    ((List.range s.dim).foldl (fun t d => (create_entities tc t d).2) s)

theorem Topology.dim_set_conn (s : Topology) (d0 d1 : Nat)
    (a : AdjacencyList) : (s.set_conn d0 d1 a).dim = s.dim := rfl

theorem Topology.dim_set_index_map (s : Topology) (d : Nat) (m : IndexMap) :
    (s.set_index_map d m).dim = s.dim := rfl

theorem Topology.conn_set_conn (s : Topology) (d0 d1 x y : Nat)
    (a : AdjacencyList) :
    (s.set_conn d0 d1 a).conn x y
      = if x = d0 ∧ y = d1 then some a else s.conn x y := rfl

theorem Topology.conn_set_index_map (s : Topology) (d : Nat) (m : IndexMap) :
    (s.set_index_map d m).conn = s.conn := rfl

theorem Topology.index_maps_set_conn (s : Topology) (d0 d1 : Nat)
    (a : AdjacencyList) : (s.set_conn d0 d1 a).index_maps = s.index_maps :=
  rfl

theorem Topology.index_maps_set_index_map (s : Topology) (d x : Nat)
    (m : IndexMap) :
    (s.set_index_map d m).index_maps x
      = if x = d then some m else s.index_maps x := rfl

theorem create_entities_of_cached (tc : TopologyComputation) (s : Topology)
    (d : Nat) (h : (s.conn d 0).isSome) :
    create_entities tc s d = (-1, s) := by
  unfold create_entities
  rw [if_pos h]

theorem create_entities_eq (tc : TopologyComputation) (s : Topology)
    (d : Nat) (ce ev : AdjacencyList) (im : IndexMap)
    (hnone : s.conn d 0 = none)
    (hcore : tc.entitiesCore ((s.conn s.dim 0).getD default) d
      = (some ce, some ev, im)) :
    create_entities tc s d
      = (Int.ofNat im.size_local,
         ((s.set_conn s.dim d ce).set_conn d 0 ev).set_index_map d im) := by
  unfold create_entities
  rw [hnone]
  simp only [Option.isSome_none, Bool.false_eq_true, if_false, hcore]

theorem create_entities_conn_d0 (tc : TopologyComputation) (s : Topology)
    (d : Nat) (ce : Option AdjacencyList) (ev : AdjacencyList) (im : IndexMap)
    (hnone : s.conn d 0 = none)
    (hcore : tc.entitiesCore ((s.conn s.dim 0).getD default) d
      = (ce, some ev, im)) :
    (create_entities tc s d).2.conn d 0 = some ev := by
  unfold create_entities
  rw [hnone]
  simp only [Option.isSome_none, Bool.false_eq_true, if_false, hcore]
  cases ce <;>
    simp [Topology.conn_set_index_map, Topology.conn_set_conn]

/-- C6. `Mesh::create_entities(d)` is cached and idempotent: if the
`(d,0)` connectivity already exists the call is a no-op returning the
sentinel `-1` and mutating nothing; otherwise (assuming the entity
computation delivers the contracted adjacency lists and index map) it
caches the `(tdim,d)` and `(d,0)` adjacency together with the dimension-`d`
index map and returns the local entity count; and a second invocation on
the resulting state is a no-op returning `-1` with the state unchanged. -/
theorem C6_create_entities_idempotent (tc : TopologyComputation)
    (s : Topology) (d : Nat) (hdim : 0 < s.dim) :
    (∀ a, s.conn d 0 = some a → create_entities tc s d = (-1, s)) ∧
    (s.conn d 0 = none →
      ∀ ce ev im,
        tc.entitiesCore ((s.conn s.dim 0).getD default) d = (some ce, some ev, im) →
        (create_entities tc s d).1 = Int.ofNat im.size_local ∧
        (create_entities tc s d).2.conn d 0 = some ev ∧
        (create_entities tc s d).2.conn s.dim d = some ce ∧
        (create_entities tc s d).2.index_maps d = some im) ∧
    (s.conn d 0 = none →
      ∀ ce ev im,
        tc.entitiesCore ((s.conn s.dim 0).getD default) d = (ce, some ev, im) →
        create_entities tc (create_entities tc s d).2 d
          = (-1, (create_entities tc s d).2)) := by
  refine ⟨?_, ?_, ?_⟩
  · intro a ha
    exact create_entities_of_cached tc s d (by rw [ha]; rfl)
  · intro hnone ce ev im hcore
    rw [create_entities_eq tc s d ce ev im hnone hcore]
    refine ⟨rfl, ?_, ?_, ?_⟩
    · simp [Topology.conn_set_index_map, Topology.conn_set_conn]
    · rw [Topology.conn_set_index_map, Topology.conn_set_conn,
        Topology.conn_set_conn]
      have hne : ¬ (s.dim = d ∧ d = 0) := by
        rintro ⟨h1, h2⟩
        omega
      by_cases hd0 : d = 0
      · simp [hd0, fun h => hne ⟨h, hd0⟩]
        intro h
        exact absurd h (by omega)
      · have : ¬ (s.dim = s.dim ∧ d = 0) := by
          rintro ⟨-, h2⟩
          exact hd0 h2
        simp [this, hne]
    · simp [Topology.index_maps_set_index_map]
  · intro hnone ce ev im hcore
    exact create_entities_of_cached tc _ d
      (by rw [create_entities_conn_d0 tc s d ce ev im hnone hcore]; rfl)

/-- Arguments of one kernel invocation, mirroring the C++ callable signature
`void(T*, const T*, const T*, const double*, const int*, const uint8_t*,
const uint32_t)`: packed coefficient row, packed constants, gathered
coordinate buffer, the (possibly null) local-facet-index pointer, the
(possibly null) permutation-byte pointer, and the cell permutation
bitmask. -/
structure KernelArgs (T : Type) where
  coeffs : List T
  constants : List T
  coords : List (List Rat)
  localFacet : Option (List Nat)
  perm : Option (List Nat)
  cellInfo : Nat

/-- A numerical kernel.  The C++ kernel's only side effect is writing or
accumulating into the accumulator location (`fn(&value, ...)`); the
embedding makes that explicit: the kernel maps the current accumulator
value and its read-only inputs to the new accumulator value. -/
def Kernel (T : Type) : Type :=
  T → KernelArgs T → T

/-- The packed-coefficient array (`Eigen::Array<T, Dynamic, Dynamic,
RowMajor>`): one row per cell, `cols` columns. -/
structure CoeffArray (T : Type) where
  cols : Nat
  rows : List (List T)

/-- Per-cell coordinate gather (`assemble_scalar_impl.h:154-157` and
twins): row `i < num_dofs_g` is geometry node `x_dofs[i]`'s coordinate row
truncated to `gdim` components, with `num_dofs_g = x_dofmap.num_links(0)`. -/
def gatherCoords (geo : Geometry) (c : Nat) : List (List Rat) :=
  let x_dofs := geo.dofmap.links c
  (List.range (geo.dofmap.num_links 0)).map
    (fun i => (geo.x.getD (x_dofs.getD i 0) []).take geo.gdim)

/-- The build-phase calls issued by `assemble_cells`
(`assemble_scalar_impl.h:132-133`). -/
def buildCells (tc : TopologyComputation) (s : Topology) : Topology :=
  create_entity_permutations tc (create_entities tc s s.dim).2

/-- The cell loop of `assemble_cells` (`assemble_scalar_impl.h:150-162`):
for each active cell, gather its coordinates, slice its coefficient row and
invoke the kernel on the running accumulator, in the order of the
active-cell list. -/
def cellLoop (geo : Geometry) (cell_info : List Nat) (fn : Kernel T)
    (coeffs : CoeffArray T) (constant_values : List T) :
    List Nat → T → T
  | [], value => value
  | c :: rest, value =>
    let coordinate_dofs := gatherCoords geo c
    let coeff_cell := coeffs.rows.getD c []
    cellLoop geo cell_info fn coeffs constant_values rest
      (fn value
        { coeffs := coeff_cell
          constants := constant_values
          coords := coordinate_dofs
          localFacet := none
          perm := none
          cellInfo := cell_info.getD c 0 })

/-- Embeds `fem::impl::assemble_cells` (`assemble_scalar_impl.h:121-165`): create
the required entities and permutations, read the cell permutation info and
run the cell loop starting from `T value(0)`.  Returns the accumulated
value together with the (mutated) mesh. -/
def assemble_cells [AddCommMonoid T] (tc : TopologyComputation) (mesh : Mesh)
    (active_cells : List Nat) (fn : Kernel T) (coeffs : CoeffArray T)
    (constant_values : List T) : T × Mesh :=
  let s := buildCells tc mesh.topology
  let cell_info := s.cell_perm_info.getD []
  (cellLoop mesh.geometry cell_info fn coeffs constant_values active_cells 0,
   { topology := s, geometry := mesh.geometry })

/-- Specification-side description of the arguments the cell dispatcher
hands to the kernel at active cell `c`: the cell's coefficient row, the
constants, the gathered per-cell coordinates, null facet and permutation
pointers, and the cell's permutation bitmask. -/
def cellArgsSpec (geo : Geometry) (cell_info : List Nat)
    (coeffs : CoeffArray T) (constant_values : List T) (c : Nat) :
    KernelArgs T :=
  { coeffs := coeffs.rows.getD c []
    constants := constant_values
    coords := gatherCoords geo c
    localFacet := none
    perm := none
    cellInfo := cell_info.getD c 0 }

theorem cellLoop_eq_foldl (geo : Geometry) (cell_info : List Nat)
    (fn : Kernel T) (coeffs : CoeffArray T) (constant_values : List T)
    (active_cells : List Nat) (v : T) :
    cellLoop geo cell_info fn coeffs constant_values active_cells v
      = active_cells.foldl
          (fun w c => fn w (cellArgsSpec geo cell_info coeffs constant_values c))
          v := by
  induction active_cells generalizing v with
  | nil => rfl
  | cons c rest ih =>
    simp only [cellLoop, List.foldl_cons, ih]
    rfl

theorem foldl_const_add [AddCommMonoid T] (k : T) (l : List Nat) (v : T) :
    l.foldl (fun w (_ : Nat) => w + k) v = v + l.length • k := by
  induction l generalizing v with
  | nil => simp
  | cons c rest ih =>
    simp only [List.foldl_cons, ih, List.length_cons, succ_nsmul]
    rw [add_assoc, add_comm k (rest.length • k)]

/-- C1. The cell dispatcher's loop is a plain running sum, starting
from zero, of one kernel invocation per entry of the active-cell list,
taken in the list's order (first conjunct); in particular a kernel that
always accumulates a fixed constant `k` into the accumulator yields exactly
`k` times the number of active cells (second conjunct). -/
theorem C1_assemble_cells_constant_kernel [AddCommMonoid T]
    (tc : TopologyComputation) (mesh : Mesh) (active_cells : List Nat)
    (fn : Kernel T) (coeffs : CoeffArray T) (constant_values : List T)
    (k : T) :
    (assemble_cells tc mesh active_cells fn coeffs constant_values).1
      = active_cells.foldl
          (fun w c => fn w
            (cellArgsSpec mesh.geometry
              ((buildCells tc mesh.topology).cell_perm_info.getD [])
              coeffs constant_values c))
          0 ∧
    (assemble_cells tc mesh active_cells (fun v _ => v + k) coeffs
        constant_values).1
      = active_cells.length • k := by
  constructor
  · exact cellLoop_eq_foldl mesh.geometry _ fn coeffs constant_values
      active_cells 0
  · show cellLoop mesh.geometry _ _ coeffs constant_values active_cells 0
      = active_cells.length • k
    rw [cellLoop_eq_foldl]
    have := foldl_const_add k active_cells (0 : T)
    simpa using this

/-- Eigen `l.segment(pos, n)` read: `n` entries of `l` starting at `pos`. -/
def seg (l : List α) (pos n : Nat) : List α :=
  (l.drop pos).take n

/-- Eigen `buf.segment(pos, src.length) = src` write: replace the entries
of `buf` at positions `[pos, pos + src.length)` by `src`. -/
def writeSeg (buf : List α) (pos : Nat) (src : List α) : List α :=
  buf.take pos ++ src ++ buf.drop (pos + src.length)

theorem length_seg (l : List α) (pos n : Nat) (h : pos + n ≤ l.length) :
    (seg l pos n).length = n := by
  simp only [seg, List.length_take, List.length_drop]
  omega

theorem getD_seg (l : List α) (pos n k : Nat) (z : α) (hk : k < n)
    (h : pos + n ≤ l.length) :
    (seg l pos n).getD k z = l.getD (pos + k) z := by
  simp only [seg, List.getD_eq_getElem?_getD, List.getElem?_take, hk,
    if_true, List.getElem?_drop]

theorem length_writeSeg (buf : List α) (pos : Nat) (src : List α)
    (h : pos + src.length ≤ buf.length) :
    (writeSeg buf pos src).length = buf.length := by
  simp only [writeSeg, List.length_append, List.length_take,
    List.length_drop]
  omega

theorem getD_writeSeg_lt (buf : List α) (pos : Nat) (src : List α)
    (q : Nat) (z : α) (hq : q < pos) (h : pos ≤ buf.length) :
    (writeSeg buf pos src).getD q z = buf.getD q z := by
  have htake : q < (buf.take pos).length := by
    simp only [List.length_take]
    omega
  simp only [writeSeg, List.getD_eq_getElem?_getD, List.append_assoc,
    List.getElem?_append, htake, if_true, List.getElem?_take, hq]

theorem getD_writeSeg_mid (buf : List α) (pos : Nat) (src : List α)
    (k : Nat) (z : α) (hk : k < src.length) (h : pos ≤ buf.length) :
    (writeSeg buf pos src).getD (pos + k) z = src.getD k z := by
  have htake : (buf.take pos).length = pos := by
    simp only [List.length_take]
    omega
  have hge : ¬ (pos + k < (buf.take pos).length) := by omega
  simp only [writeSeg, List.getD_eq_getElem?_getD, List.append_assoc,
    List.getElem?_append, hge, if_false, htake]
  have h2 : ¬ (pos + k < pos) := by omega
  have h3 : pos + k - pos = k := by omega
  simp [h2, h3, hk]

/-- One iteration of the coefficient-gather loop of
`assemble_interior_facets` (`assemble_scalar_impl.h:312-320`): for
coefficient `i`, write side-0's slice `offsets[i] : offsets[i+1]` at
position `2*offsets[i]` of the flattened buffer and side-1's slice at
position `offsets[i+1] + offsets[i]`. -/
def packCoeffStep (offsets : List Nat) (c0 c1 : List α) (buf : List α)
    (i : Nat) : List α :=
  let num_entries := offsets.getD (i + 1) 0 - offsets.getD i 0
  let buf1 := writeSeg buf (2 * offsets.getD i 0)
    (seg c0 (offsets.getD i 0) num_entries)
  writeSeg buf1 (offsets.getD (i + 1) 0 + offsets.getD i 0)
    (seg c1 (offsets.getD i 0) num_entries)

/-- The flattened interior-facet coefficient buffer `coeff_array`
(`assemble_scalar_impl.h:262` and `311-320`): length `2 * offsets.back()`
(allocated uninitialized in the source — `z` stands for the arbitrary
initial contents), filled by one `packCoeffStep` per coefficient. -/
def packInteriorCoeffs (z : α) (offsets : List Nat) (c0 c1 : List α) :
    List α :=
  (List.range (offsets.length - 1)).foldl (packCoeffStep offsets c0 c1)
    (List.replicate (2 * offsets.getLastD 0) z)

theorem packCoeffStep_length (offsets : List Nat) (c0 c1 : List α)
    (buf : List α) (i : Nat)
    (hmono : offsets.getD i 0 ≤ offsets.getD (i + 1) 0)
    (hbuf : 2 * offsets.getD (i + 1) 0 ≤ buf.length) :
    (packCoeffStep offsets c0 c1 buf i).length = buf.length := by
  unfold packCoeffStep
  have hs0 : (seg c0 (offsets.getD i 0)
      (offsets.getD (i + 1) 0 - offsets.getD i 0)).length
      ≤ offsets.getD (i + 1) 0 - offsets.getD i 0 := by
    simp only [seg, List.length_take]
    omega
  have hs1 : (seg c1 (offsets.getD i 0)
      (offsets.getD (i + 1) 0 - offsets.getD i 0)).length
      ≤ offsets.getD (i + 1) 0 - offsets.getD i 0 := by
    simp only [seg, List.length_take]
    omega
  rw [length_writeSeg, length_writeSeg]
  · omega
  · rw [length_writeSeg] <;> omega

theorem packCoeffStep_getD_lt (offsets : List Nat) (c0 c1 : List α)
    (buf : List α) (i q : Nat) (z : α)
    (hmono : offsets.getD i 0 ≤ offsets.getD (i + 1) 0)
    (hbuf : 2 * offsets.getD (i + 1) 0 ≤ buf.length)
    (hq : q < 2 * offsets.getD i 0) :
    (packCoeffStep offsets c0 c1 buf i).getD q z = buf.getD q z := by
  unfold packCoeffStep
  have hs0 : (seg c0 (offsets.getD i 0)
      (offsets.getD (i + 1) 0 - offsets.getD i 0)).length
      ≤ offsets.getD (i + 1) 0 - offsets.getD i 0 := by
    simp only [seg, List.length_take]
    omega
  rw [getD_writeSeg_lt, getD_writeSeg_lt]
  · omega
  · omega
  · omega
  · rw [length_writeSeg] <;> omega

theorem packLoop_length (offsets : List Nat) (c0 c1 : List α)
    (L : List Nat) (buf : List α)
    (hL : ∀ j ∈ L, offsets.getD j 0 ≤ offsets.getD (j + 1) 0
      ∧ 2 * offsets.getD (j + 1) 0 ≤ buf.length) :
    (L.foldl (packCoeffStep offsets c0 c1) buf).length = buf.length := by
  induction L generalizing buf with
  | nil => rfl
  | cons j rest ih =>
    obtain ⟨h1, h2⟩ := hL j (List.mem_cons_self j rest)
    have hstep := packCoeffStep_length offsets c0 c1 buf j h1 h2
    simp only [List.foldl_cons]
    rw [ih _ (fun j' hj' => by
      obtain ⟨h1', h2'⟩ := hL j' (List.mem_cons_of_mem j hj')
      exact ⟨h1', by omega⟩)]
    exact hstep

theorem packLoop_frame (offsets : List Nat) (c0 c1 : List α)
    (L : List Nat) (buf : List α) (p : Nat) (z : α)
    (hL : ∀ j ∈ L, offsets.getD j 0 ≤ offsets.getD (j + 1) 0
      ∧ 2 * offsets.getD (j + 1) 0 ≤ buf.length
      ∧ p < 2 * offsets.getD j 0) :
    (L.foldl (packCoeffStep offsets c0 c1) buf).getD p z = buf.getD p z := by
  induction L generalizing buf with
  | nil => rfl
  | cons j rest ih =>
    obtain ⟨h1, h2, h3⟩ := hL j (List.mem_cons_self j rest)
    have hlen := packCoeffStep_length offsets c0 c1 buf j h1 h2
    simp only [List.foldl_cons]
    rw [ih _ (fun j' hj' => by
      obtain ⟨h1', h2', h3'⟩ := hL j' (List.mem_cons_of_mem j hj')
      exact ⟨h1', by omega, h3'⟩)]
    exact packCoeffStep_getD_lt offsets c0 c1 buf j p z h1 h2 h3

theorem packCoeffStep_getD_c0 (offsets : List Nat) (c0 c1 : List α)
    (buf : List α) (i k : Nat) (z : α)
    (hmono : offsets.getD i 0 ≤ offsets.getD (i + 1) 0)
    (hbuf : 2 * offsets.getD (i + 1) 0 ≤ buf.length)
    (hk : k < offsets.getD (i + 1) 0 - offsets.getD i 0)
    (hc0 : offsets.getD (i + 1) 0 ≤ c0.length) :
    (packCoeffStep offsets c0 c1 buf i).getD (2 * offsets.getD i 0 + k) z
      = c0.getD (offsets.getD i 0 + k) z := by
  unfold packCoeffStep
  have hseglen : (seg c0 (offsets.getD i 0)
      (offsets.getD (i + 1) 0 - offsets.getD i 0)).length
      = offsets.getD (i + 1) 0 - offsets.getD i 0 :=
    length_seg _ _ _ (by omega)
  rw [getD_writeSeg_lt, getD_writeSeg_mid, getD_seg]
  · exact hk
  · omega
  · omega
  · omega
  · omega
  · rw [length_writeSeg] <;> omega

theorem packCoeffStep_getD_c1 (offsets : List Nat) (c0 c1 : List α)
    (buf : List α) (i k : Nat) (z : α)
    (hmono : offsets.getD i 0 ≤ offsets.getD (i + 1) 0)
    (hbuf : 2 * offsets.getD (i + 1) 0 ≤ buf.length)
    (hk : k < offsets.getD (i + 1) 0 - offsets.getD i 0)
    (hc1 : offsets.getD (i + 1) 0 ≤ c1.length) :
    (packCoeffStep offsets c0 c1 buf i).getD
        (offsets.getD (i + 1) 0 + offsets.getD i 0 + k) z
      = c1.getD (offsets.getD i 0 + k) z := by
  unfold packCoeffStep
  have hs0 : (seg c0 (offsets.getD i 0)
      (offsets.getD (i + 1) 0 - offsets.getD i 0)).length
      ≤ offsets.getD (i + 1) 0 - offsets.getD i 0 := by
    simp only [seg, List.length_take]
    omega
  have hlen1 : (writeSeg buf (2 * offsets.getD i 0)
      (seg c0 (offsets.getD i 0)
        (offsets.getD (i + 1) 0 - offsets.getD i 0))).length = buf.length := by
    rw [length_writeSeg] <;> omega
  rw [getD_writeSeg_mid, getD_seg]
  · exact hk
  · omega
  · rw [length_seg] <;> omega
  · omega

theorem offsets_mono_chain (offsets : List Nat)
    (hmono : ∀ j, j + 1 < offsets.length →
      offsets.getD j 0 ≤ offsets.getD (j + 1) 0) :
    ∀ b a, a ≤ b → b < offsets.length →
      offsets.getD a 0 ≤ offsets.getD b 0 := by
  intro b
  induction b with
  | zero =>
    intro a ha _
    interval_cases a
    exact le_refl _
  | succ n ih =>
    intro a ha hb
    rcases Nat.lt_or_ge a (n + 1) with h | h
    · exact le_trans (ih a (by omega) (by omega)) (hmono n hb)
    · have : a = n + 1 := by omega
      rw [this]

/-- C2. Interior-facet coefficient packing round-trips: the flattened
buffer has length `2 * offsets.back()`, and for every coefficient `i`
(delimited by `offsets`) and every entry `k` of its per-cell block,
restriction 0 — the slice starting at `2*offsets[i]` — holds cell0's
coefficient row entries `offsets[i] + k`, and restriction 1 — the slice
starting immediately after, at `offsets[i+1] + offsets[i]` — holds cell1's,
so extracting the two restrictions reproduces exactly the original
per-cell coefficient rows (layout `[coefficient][restriction][dof]`). -/
theorem C2_interior_coeff_packing_roundtrip (z : α) (offsets : List Nat)
    (c0 c1 : List α) (i k : Nat)
    (hmono : ∀ j, j + 1 < offsets.length →
      offsets.getD j 0 ≤ offsets.getD (j + 1) 0)
    (hc0 : offsets.getLastD 0 ≤ c0.length)
    (hc1 : offsets.getLastD 0 ≤ c1.length)
    (hi : i + 1 < offsets.length)
    (hk : k < offsets.getD (i + 1) 0 - offsets.getD i 0) :
    (packInteriorCoeffs z offsets c0 c1).length = 2 * offsets.getLastD 0 ∧
    (packInteriorCoeffs z offsets c0 c1).getD (2 * offsets.getD i 0 + k) z
      = c0.getD (offsets.getD i 0 + k) z ∧
    (packInteriorCoeffs z offsets c0 c1).getD
        (offsets.getD (i + 1) 0 + offsets.getD i 0 + k) z
      = c1.getD (offsets.getD i 0 + k) z := by
  have hlast : offsets.getLastD 0 = offsets.getD (offsets.length - 1) 0 := by
    rw [List.getLastD_eq_getLast?, List.getLast?_eq_getElem?,
      List.getD_eq_getElem?_getD]
  have hchain := offsets_mono_chain offsets hmono
  have hle_last : ∀ j, j < offsets.length →
      offsets.getD j 0 ≤ offsets.getLastD 0 := by
    intro j hj
    rw [hlast]
    exact hchain (offsets.length - 1) j (by omega) (by omega)
  have hbounds : ∀ j, j + 1 < offsets.length →
      offsets.getD j 0 ≤ offsets.getD (j + 1) 0
      ∧ 2 * offsets.getD (j + 1) 0
        ≤ (List.replicate (2 * offsets.getLastD 0) z).length := by
    intro j hj
    refine ⟨hmono j hj, ?_⟩
    rw [List.length_replicate]
    have := hle_last (j + 1) hj
    omega
  have hlen : (packInteriorCoeffs z offsets c0 c1).length
      = 2 * offsets.getLastD 0 := by
    unfold packInteriorCoeffs
    rw [packLoop_length]
    · rw [List.length_replicate]
    · intro j hj
      exact hbounds j (by
        have := List.mem_range.mp hj
        omega)
  refine ⟨hlen, ?_, ?_⟩
  all_goals {
    unfold packInteriorCoeffs
    rw [show List.range (offsets.length - 1)
        = List.range (i + 1)
          ++ (List.range (offsets.length - 1 - (i + 1))).map
              (fun x => (i + 1) + x) by
      rw [← List.range_add]
      congr 1
      omega]
    rw [List.foldl_append]
    rw [show List.range (i + 1) = List.range i ++ [i] by
      rw [List.range_succ]]
    rw [List.foldl_append]
    have hlenI : ((List.range i).foldl (packCoeffStep offsets c0 c1)
        (List.replicate (2 * offsets.getLastD 0) z)).length
        = 2 * offsets.getLastD 0 := by
      rw [packLoop_length]
      · rw [List.length_replicate]
      · intro j hj
        exact hbounds j (by
          have := List.mem_range.mp hj
          omega)
    have hlenS : ((([i].foldl (packCoeffStep offsets c0 c1)
        ((List.range i).foldl (packCoeffStep offsets c0 c1)
          (List.replicate (2 * offsets.getLastD 0) z))))).length
        = 2 * offsets.getLastD 0 := by
      simp only [List.foldl_cons, List.foldl_nil]
      rw [packCoeffStep_length]
      · exact hlenI
      · exact hmono i hi
      · rw [hlenI]
        have := hle_last (i + 1) hi
        omega
    rw [packLoop_frame]
    case hL =>
      intro j hj
      obtain ⟨x, hx, hxj⟩ := List.mem_map.mp hj
      have hxlt := List.mem_range.mp hx
      have hj1 : j + 1 < offsets.length := by omega
      refine ⟨hmono j hj1, ?_, ?_⟩
      · rw [hlenS]
        have := hle_last (j + 1) hj1
        omega
      · have hij : i + 1 ≤ j := by omega
        have := hchain j (i + 1) hij (by omega)
        have := hmono i hi
        omega
    simp only [List.foldl_cons, List.foldl_nil]
    first
    | (rw [packCoeffStep_getD_c0]
       · exact hmono i hi
       · rw [hlenI]
         have := hle_last (i + 1) hi
         omega
       · exact hk
       · exact le_trans (hle_last (i + 1) hi) hc0)
    | (rw [packCoeffStep_getD_c1]
       · exact hmono i hi
       · rw [hlenI]
         have := hle_last (i + 1) hi
         omega
       · exact hk
       · exact le_trans (hle_last (i + 1) hi) hc1)
  }

/-- Failure modes of the assembly dispatcher.  The spec's error taxonomy:
`unsetConstant` is the `runtime_error` thrown at
`assemble_scalar_impl.h:68`; `inconsistentTopology` covers the violated
incidence/search invariants asserted in the facet loops
(`assemble_scalar_impl.h:211,218,281,290`); `missingConnectivity` the
violated `assert(f_to_c)` / `assert(c_to_f)` before the loops;
`offsetsMismatch` the violated
`assert(offsets.back() == coeffs.cols())` at `assemble_scalar_impl.h:263`. -/
inductive AssembleError where
  | unsetConstant
  | inconsistentTopology
  | missingConnectivity
  | offsetsMismatch
deriving DecidableEq, Repr

/-- The facet loop of `assemble_exterior_facets`
(`assemble_scalar_impl.h:206-229`): for each active facet, its incident
cell list must have exactly one entry; the facet's local index is resolved
by linear search (`std::find`) through that cell's facet list; then gather
the cell's coordinates and coefficient row, look up the facet permutation
byte at `(local_facet, cell)`, and invoke the kernel with the single
local-facet index, the single permutation byte and the cell's permutation
bitmask. -/
def extLoop (geo : Geometry) (f2c c2f : AdjacencyList)
    (perms : List (List Nat)) (cell_info : List Nat) (fn : Kernel T)
    (coeffs : CoeffArray T) (constant_values : List T) :
    List Nat → T → Except AssembleError T
  | [], value => .ok value
  | facet :: rest, value =>
    let cells := f2c.links facet
    if cells.length = 1 then
      let cell := cells.getD 0 0
      let facets := c2f.links cell
      match facets.findIdx? (· == facet) with
      | some local_facet =>
        let coordinate_dofs := gatherCoords geo cell
        let coeff_cell := coeffs.rows.getD cell []
        let perm := (perms.getD cell []).getD local_facet 0
        extLoop geo f2c c2f perms cell_info fn coeffs constant_values rest
          (fn value
            { coeffs := coeff_cell
              constants := constant_values
              coords := coordinate_dofs
              localFacet := some [local_facet]
              perm := some [perm]
              cellInfo := cell_info.getD cell 0 })
      | none => .error .inconsistentTopology
    else .error .inconsistentTopology

/-- The facet loop of `assemble_interior_facets`
(`assemble_scalar_impl.h:275-324`): each active facet must have exactly two
incident cells; both local facet indices are resolved by the same linear
search, the two permutation bytes are read at `(local_facet[i], cells[i])`,
side-0's and side-1's coordinates are concatenated, the coefficient rows of
the two cells are packed into the flattened buffer, and the kernel is
invoked once with both local-facet indices, both permutation bytes and
`cell_info[cells[0]]`.  (The source allocates `coeff_array` once before the
loop; since every iteration writes exactly the same positions, refilling a
fresh buffer per facet is observationally identical and is how the
embedding renders it.) -/
def intLoop [AddCommMonoid T] (geo : Geometry) (f2c c2f : AdjacencyList)
    (perms : List (List Nat)) (cell_info : List Nat) (fn : Kernel T)
    (coeffs : CoeffArray T) (offsets : List Nat) (constant_values : List T) :
    List Nat → T → Except AssembleError T
  | [], value => .ok value
  | f :: rest, value =>
    let cells := f2c.links f
    if cells.length = 2 then
      match (c2f.links (cells.getD 0 0)).findIdx? (· == f),
            (c2f.links (cells.getD 1 0)).findIdx? (· == f) with
      | some lf0, some lf1 =>
        let perm0 := (perms.getD (cells.getD 0 0) []).getD lf0 0
        let perm1 := (perms.getD (cells.getD 1 0) []).getD lf1 0
        let coordinate_dofs := gatherCoords geo (cells.getD 0 0)
          ++ gatherCoords geo (cells.getD 1 0)
        let coeff_array := packInteriorCoeffs 0 offsets
          (coeffs.rows.getD (cells.getD 0 0) [])
          (coeffs.rows.getD (cells.getD 1 0) [])
        intLoop geo f2c c2f perms cell_info fn coeffs offsets
          constant_values rest
          (fn value
            { coeffs := coeff_array
              constants := constant_values
              coords := coordinate_dofs
              localFacet := some [lf0, lf1]
              perm := some [perm0, perm1]
              cellInfo := cell_info.getD (cells.getD 0 0) 0 })
      | _, _ => .error .inconsistentTopology
    else .error .inconsistentTopology

/-- The build-phase calls issued by `assemble_exterior_facets` and
`assemble_interior_facets` (`assemble_scalar_impl.h:180-182` and
`247-249`): create the facet entities, the facet↔cell connectivity and the
permutation data. -/
def buildFacets (tc : TopologyComputation) (s : Topology) : Topology :=
  create_entity_permutations tc
    (create_connectivity tc (create_entities tc s (s.dim - 1)).2
      (s.dim - 1) s.dim)

/-- Embeds `fem::impl::assemble_exterior_facets` (`assemble_scalar_impl.h:167-232`). -/
def assemble_exterior_facets [AddCommMonoid T] (tc : TopologyComputation)
    (mesh : Mesh) (active_facets : List Nat) (fn : Kernel T)
    (coeffs : CoeffArray T) (constant_values : List T) :
    Except AssembleError (T × Mesh) :=
  let s := buildFacets tc mesh.topology
  let perms := s.facet_perms.getD []
  let cell_info := s.cell_perm_info.getD []
  match s.conn (s.dim - 1) s.dim, s.conn s.dim (s.dim - 1) with
  | some f2c, some c2f =>
    (extLoop mesh.geometry f2c c2f perms cell_info fn coeffs constant_values
      active_facets 0).map
      (fun v => (v, { topology := s, geometry := mesh.geometry }))
  | _, _ => .error .missingConnectivity

/-- Embeds `fem::impl::assemble_interior_facets` (`assemble_scalar_impl.h:234-327`). -/
def assemble_interior_facets [AddCommMonoid T] (tc : TopologyComputation)
    (mesh : Mesh) (active_facets : List Nat) (fn : Kernel T)
    (coeffs : CoeffArray T) (offsets : List Nat) (constant_values : List T) :
    Except AssembleError (T × Mesh) :=
  let s := buildFacets tc mesh.topology
  let perms := s.facet_perms.getD []
  let cell_info := s.cell_perm_info.getD []
  if offsets.getLastD 0 = coeffs.cols then
    match s.conn (s.dim - 1) s.dim, s.conn s.dim (s.dim - 1) with
    | some f2c, some c2f =>
      (intLoop mesh.geometry f2c c2f perms cell_info fn coeffs offsets
        constant_values active_facets 0).map
        (fun v => (v, { topology := s, geometry := mesh.geometry }))
    | _, _ => .error .missingConnectivity
  else .error .offsetsMismatch

/-- Specification-side description of the arguments the interior-facet
dispatcher hands to the kernel at active facet `f`: the local-facet-index
list and the permutation-byte list are ordered by the facet's incident-cell
order (side 0 then side 1, one entry per incident cell), each local index
being the position of `f` in the incident cell's facet list; the
coordinate buffer concatenates side-0's rows then side-1's; the
coefficient buffer is the flattened `[coefficient][restriction][dof]`
packing of the two incident cells' rows; and the cell permutation bitmask
is side 0's only. -/
def intArgsSpec [AddCommMonoid T] (geo : Geometry) (f2c c2f : AdjacencyList)
    (perms : List (List Nat)) (cell_info : List Nat) (coeffs : CoeffArray T)
    (offsets : List Nat) (constant_values : List T) (f : Nat) :
    KernelArgs T :=
  let cells := f2c.links f
  let lfs := cells.map (fun c => (c2f.links c).findIdx (· == f))
  { coeffs := packInteriorCoeffs 0 offsets
      (coeffs.rows.getD (cells.getD 0 0) [])
      (coeffs.rows.getD (cells.getD 1 0) [])
    constants := constant_values
    coords := gatherCoords geo (cells.getD 0 0)
      ++ gatherCoords geo (cells.getD 1 0)
    localFacet := some lfs
    perm := some ((cells.zip lfs).map
      (fun p => (perms.getD p.1 []).getD p.2 0))
    cellInfo := cell_info.getD (cells.getD 0 0) 0 }

theorem findIdx?_isSome_of_mem (l : List Nat) (x : Nat) (h : x ∈ l) :
    (l.findIdx? (· == x)).isSome := by
  rw [List.findIdx?_isSome]
  exact List.any_of_mem h (by simp)

theorem findIdx?_eq_none_of_not_mem (l : List Nat) (x : Nat)
    (h : ¬ x ∈ l) : l.findIdx? (· == x) = none := by
  rw [List.findIdx?_eq_none_iff]
  intro y hy
  simp only [beq_eq_false_iff_ne, ne_eq]
  intro hxy
  exact h (hxy ▸ hy)

theorem intLoop_cons_eq [AddCommMonoid T] (geo : Geometry)
    (f2c c2f : AdjacencyList) (perms : List (List Nat))
    (cell_info : List Nat) (fn : Kernel T) (coeffs : CoeffArray T)
    (offsets : List Nat) (constant_values : List T) (f : Nat)
    (rest : List Nat) (v : T)
    (hlen : (f2c.links f).length = 2)
    (h0 : f ∈ c2f.links ((f2c.links f).getD 0 0))
    (h1 : f ∈ c2f.links ((f2c.links f).getD 1 0)) :
    intLoop geo f2c c2f perms cell_info fn coeffs offsets constant_values
        (f :: rest) v
      = intLoop geo f2c c2f perms cell_info fn coeffs offsets
          constant_values rest
          (fn v (intArgsSpec geo f2c c2f perms cell_info coeffs offsets
            constant_values f)) := by
  obtain ⟨a, b, hab⟩ := List.length_eq_two.mp hlen
  rw [hab] at h0 h1
  simp only [List.getD_cons_zero, List.getD_cons_succ] at h0 h1
  obtain ⟨lf0, hlf0⟩ :=
    Option.isSome_iff_exists.mp (findIdx?_isSome_of_mem _ f h0)
  obtain ⟨lf1, hlf1⟩ :=
    Option.isSome_iff_exists.mp (findIdx?_isSome_of_mem _ f h1)
  simp only [intLoop, hab, List.length_cons, List.length_nil,
    List.getD_cons_zero, List.getD_cons_succ, hlf0, hlf1, if_true]
  congr 1
  simp only [intArgsSpec, hab, List.getD_cons_zero, List.getD_cons_succ,
    List.map_cons, List.map_nil, List.zip_cons_cons, List.zip_nil_right,
    List.findIdx_eq_findIdx?, hlf0, hlf1]

/-- C3. Under the interior-facet incidence invariants (two incident
cells per active facet, each containing the facet in its facet list), the
interior-facet loop invokes the kernel exactly once per active facet, in
list order, with arguments described by `intArgsSpec`: the 2-element
local-facet-index list and the 2-element permutation-byte list ordered by
the facet's incident-cell order (side 0 then side 1), and only side 0's
cell permutation bitmask — `cell_info` of the first incident cell, never
the second's (second conjunct). -/
theorem C3_interior_facet_kernel_invocation [AddCommMonoid T]
    (geo : Geometry) (f2c c2f : AdjacencyList) (perms : List (List Nat))
    (cell_info : List Nat) (fn : Kernel T) (coeffs : CoeffArray T)
    (offsets : List Nat) (constant_values : List T) (active : List Nat)
    (v : T)
    (hwf : ∀ f ∈ active, (f2c.links f).length = 2
      ∧ f ∈ c2f.links ((f2c.links f).getD 0 0)
      ∧ f ∈ c2f.links ((f2c.links f).getD 1 0)) :
    intLoop geo f2c c2f perms cell_info fn coeffs offsets constant_values
        active v
      = .ok (active.foldl
          (fun w f => fn w (intArgsSpec geo f2c c2f perms cell_info coeffs
            offsets constant_values f)) v) ∧
    ∀ f ∈ active,
      (intArgsSpec geo f2c c2f perms cell_info coeffs offsets
        constant_values f).cellInfo
        = cell_info.getD ((f2c.links f).getD 0 0) 0 := by
  constructor
  · induction active generalizing v with
    | nil => rfl
    | cons f rest ih =>
      obtain ⟨hlen, h0, h1⟩ := hwf f (List.mem_cons_self f rest)
      rw [intLoop_cons_eq geo f2c c2f perms cell_info fn coeffs offsets
        constant_values f rest v hlen h0 h1]
      rw [List.foldl_cons]
      exact ih _ (fun f' hf' => hwf f' (List.mem_cons_of_mem f hf'))
  · intro f _
    rfl

theorem extLoop_ok_iff [AddCommMonoid T] (geo : Geometry)
    (f2c c2f : AdjacencyList) (perms : List (List Nat))
    (cell_info : List Nat) (fn : Kernel T) (coeffs : CoeffArray T)
    (constant_values : List T) (active : List Nat) (v : T) :
    (∃ t, extLoop geo f2c c2f perms cell_info fn coeffs constant_values
        active v = .ok t)
      ↔ ∀ f ∈ active, (f2c.links f).length = 1
          ∧ f ∈ c2f.links ((f2c.links f).getD 0 0) := by
  induction active generalizing v with
  | nil => simp [extLoop]
  | cons f rest ih =>
    by_cases hlen : (f2c.links f).length = 1
    · by_cases hmem : f ∈ c2f.links ((f2c.links f).getD 0 0)
      · obtain ⟨lf, hlf⟩ :=
          Option.isSome_iff_exists.mp (findIdx?_isSome_of_mem _ f hmem)
        have hstep : ∀ w : T,
            extLoop geo f2c c2f perms cell_info fn coeffs constant_values
              (f :: rest) w
            = extLoop geo f2c c2f perms cell_info fn coeffs constant_values
              rest (fn w
                { coeffs := coeffs.rows.getD ((f2c.links f).getD 0 0) []
                  constants := constant_values
                  coords := gatherCoords geo ((f2c.links f).getD 0 0)
                  localFacet := some [lf]
                  perm := some [(perms.getD ((f2c.links f).getD 0 0) []).getD
                    lf 0]
                  cellInfo := cell_info.getD ((f2c.links f).getD 0 0) 0 }) :=
          by
          intro w
          simp only [extLoop, hlen, if_true, hlf]
        rw [hstep v, ih, List.forall_mem_cons]
        exact ⟨fun h => ⟨⟨hlen, hmem⟩, h⟩, fun h => h.2⟩
      · have hnone := findIdx?_eq_none_of_not_mem _ f hmem
        have hstep : extLoop geo f2c c2f perms cell_info fn coeffs
            constant_values (f :: rest) v = .error .inconsistentTopology := by
          simp only [extLoop, hlen, if_true, hnone]
        rw [hstep]
        constructor
        · rintro ⟨t, ht⟩
          simp at ht
        · intro hall
          exact absurd (hall f (List.mem_cons_self f rest)).2 hmem
    · have hstep : extLoop geo f2c c2f perms cell_info fn coeffs
          constant_values (f :: rest) v = .error .inconsistentTopology := by
        simp only [extLoop, hlen, if_false]
      rw [hstep]
      constructor
      · rintro ⟨t, ht⟩
        simp at ht
      · intro hall
        exact absurd (hall f (List.mem_cons_self f rest)).1 hlen

theorem extLoop_error_imp [AddCommMonoid T] (geo : Geometry)
    (f2c c2f : AdjacencyList) (perms : List (List Nat))
    (cell_info : List Nat) (fn : Kernel T) (coeffs : CoeffArray T)
    (constant_values : List T) (active : List Nat) (v : T)
    (e : AssembleError)
    (h : extLoop geo f2c c2f perms cell_info fn coeffs constant_values
      active v = .error e) :
    e = .inconsistentTopology := by
  induction active generalizing v with
  | nil => simp [extLoop] at h
  | cons f rest ih =>
    simp only [extLoop] at h
    by_cases hlen : (f2c.links f).length = 1
    · rw [if_pos hlen] at h
      cases hfi : (c2f.links ((f2c.links f).getD 0 0)).findIdx? (· == f) with
      | some lf =>
        rw [hfi] at h
        exact ih _ h
      | none =>
        rw [hfi] at h
        injection h with h'
        exact h'.symm
    · rw [if_neg hlen] at h
      injection h with h'
      exact h'.symm

theorem intLoop_ok_iff [AddCommMonoid T] (geo : Geometry)
    (f2c c2f : AdjacencyList) (perms : List (List Nat))
    (cell_info : List Nat) (fn : Kernel T) (coeffs : CoeffArray T)
    (offsets : List Nat) (constant_values : List T) (active : List Nat)
    (v : T) :
    (∃ t, intLoop geo f2c c2f perms cell_info fn coeffs offsets
        constant_values active v = .ok t)
      ↔ ∀ f ∈ active, (f2c.links f).length = 2
          ∧ f ∈ c2f.links ((f2c.links f).getD 0 0)
          ∧ f ∈ c2f.links ((f2c.links f).getD 1 0) := by
  induction active generalizing v with
  | nil => simp [intLoop]
  | cons f rest ih =>
    by_cases hlen : (f2c.links f).length = 2
    · by_cases h0 : f ∈ c2f.links ((f2c.links f).getD 0 0)
      · by_cases h1 : f ∈ c2f.links ((f2c.links f).getD 1 0)
        · rw [intLoop_cons_eq geo f2c c2f perms cell_info fn coeffs offsets
            constant_values f rest v hlen h0 h1, ih, List.forall_mem_cons]
          exact ⟨fun h => ⟨⟨hlen, h0, h1⟩, h⟩, fun h => h.2⟩
        · have hnone := findIdx?_eq_none_of_not_mem _ f h1
          have hstep : intLoop geo f2c c2f perms cell_info fn coeffs offsets
              constant_values (f :: rest) v
              = .error .inconsistentTopology := by
            simp only [intLoop, hlen, if_true, hnone]
            cases hfi : (c2f.links ((f2c.links f).getD 0 0)).findIdx?
              (· == f) <;> rfl
          rw [hstep]
          constructor
          · rintro ⟨t, ht⟩
            simp at ht
          · intro hall
            exact absurd (hall f (List.mem_cons_self f rest)).2.2 h1
      · have hnone := findIdx?_eq_none_of_not_mem _ f h0
        have hstep : intLoop geo f2c c2f perms cell_info fn coeffs offsets
            constant_values (f :: rest) v
            = .error .inconsistentTopology := by
          simp only [intLoop, hlen, if_true, hnone]
        rw [hstep]
        constructor
        · rintro ⟨t, ht⟩
          simp at ht
        · intro hall
          exact absurd (hall f (List.mem_cons_self f rest)).2.1 h0
    · have hstep : intLoop geo f2c c2f perms cell_info fn coeffs offsets
          constant_values (f :: rest) v = .error .inconsistentTopology := by
        simp only [intLoop, hlen, if_false]
      rw [hstep]
      constructor
      · rintro ⟨t, ht⟩
        simp at ht
      · intro hall
        exact absurd (hall f (List.mem_cons_self f rest)).1 hlen

theorem intLoop_error_imp [AddCommMonoid T] (geo : Geometry)
    (f2c c2f : AdjacencyList) (perms : List (List Nat))
    (cell_info : List Nat) (fn : Kernel T) (coeffs : CoeffArray T)
    (offsets : List Nat) (constant_values : List T) (active : List Nat)
    (v : T) (e : AssembleError)
    (h : intLoop geo f2c c2f perms cell_info fn coeffs offsets
      constant_values active v = .error e) :
    e = .inconsistentTopology := by
  induction active generalizing v with
  | nil => simp [intLoop] at h
  | cons f rest ih =>
    simp only [intLoop] at h
    by_cases hlen : (f2c.links f).length = 2
    · rw [if_pos hlen] at h
      cases hf0 : (c2f.links ((f2c.links f).getD 0 0)).findIdx? (· == f) with
      | some lf0 =>
        rw [hf0] at h
        cases hf1 : (c2f.links ((f2c.links f).getD 1 0)).findIdx? (· == f) with
        | some lf1 =>
          rw [hf1] at h
          exact ih _ h
        | none =>
          rw [hf1] at h
          injection h with h'
          exact h'.symm
      | none =>
        rw [hf0] at h
        injection h with h'
        exact h'.symm
    · rw [if_neg hlen] at h
      injection h with h'
      exact h'.symm

/-- C4. Facet assembly aborts with the fatal `InconsistentTopology`
error — returning no partial result — exactly when some active facet of an
exterior-facet integral does not have exactly one incident cell or is not
found by linear search in its incident cell's facet list (first conjunct),
and exactly when some active facet of an interior-facet integral does not
have exactly two incident cells or is not found in one of its two incident
cells' facet lists (second conjunct). -/
theorem C4_facet_incidence_fatal [AddCommMonoid T] (geo : Geometry)
    (f2c c2f : AdjacencyList) (perms : List (List Nat))
    (cell_info : List Nat) (fn : Kernel T) (coeffs : CoeffArray T)
    (offsets : List Nat) (constant_values : List T) (active : List Nat)
    (v : T) :
    (extLoop geo f2c c2f perms cell_info fn coeffs constant_values active v
        = .error .inconsistentTopology
      ↔ ¬ ∀ f ∈ active, (f2c.links f).length = 1
          ∧ f ∈ c2f.links ((f2c.links f).getD 0 0)) ∧
    (intLoop geo f2c c2f perms cell_info fn coeffs offsets constant_values
        active v = .error .inconsistentTopology
      ↔ ¬ ∀ f ∈ active, (f2c.links f).length = 2
          ∧ f ∈ c2f.links ((f2c.links f).getD 0 0)
          ∧ f ∈ c2f.links ((f2c.links f).getD 1 0)) := by
  constructor
  · constructor
    · intro h hall
      obtain ⟨t, ht⟩ := (extLoop_ok_iff geo f2c c2f perms cell_info fn coeffs
        constant_values active v).mpr hall
      rw [ht] at h
      simp at h
    · intro hnall
      cases hres : extLoop geo f2c c2f perms cell_info fn coeffs
        constant_values active v with
      | ok t =>
        exact absurd ((extLoop_ok_iff geo f2c c2f perms cell_info fn coeffs
          constant_values active v).mp ⟨t, hres⟩) hnall
      | error e =>
        rw [extLoop_error_imp geo f2c c2f perms cell_info fn coeffs
          constant_values active v e hres]
  · constructor
    · intro h hall
      obtain ⟨t, ht⟩ := (intLoop_ok_iff geo f2c c2f perms cell_info fn coeffs
        offsets constant_values active v).mpr hall
      rw [ht] at h
      simp at h
    · intro hnall
      cases hres : intLoop geo f2c c2f perms cell_info fn coeffs offsets
        constant_values active v with
      | ok t =>
        exact absurd ((intLoop_ok_iff geo f2c c2f perms cell_info fn coeffs
          offsets constant_values active v).mp ⟨t, hres⟩) hnall
      | error e =>
        rw [intLoop_error_imp geo f2c c2f perms cell_info fn coeffs offsets
          constant_values active v e hres]

/-- One integral of a `fem::Form`: a kernel (the tabulate-tensor callable
obtained from `integrals.get_tabulate_tensor`) and its active-entity list
(`integrals.integral_domains`). -/
structure FormIntegral (T : Type) where
  fn : Kernel T
  domains : List Nat

/-- The `fem::Form<T>` as consumed by `assemble_scalar`
(`assemble_scalar_impl.h:61-119`): its constants (each optionally carrying
a value — `all_constants_set` checks that every one does), the packed
coefficient array (`pack_coefficients(M)`, produced by the external pack
step) with the coefficient `offsets` (`M.coefficients().offsets()`), and
the integral lists of the three integral kinds. -/
structure Form (T : Type) where
  constants : List (Option (List T))
  coeffs : CoeffArray T
  offsets : List Nat
  cellIntegrals : List (FormIntegral T)
  extIntegrals : List (FormIntegral T)
  intIntegrals : List (FormIntegral T)

/-- Modelled from the spec: `Form::all_constants_set` (`Form.h` is not in
this snapshot) — a Form's constants are all set exactly when each carries
an assigned value. -/
def Form.all_constants_set (M : Form T) : Bool :=
  M.constants.all (fun c => c.isSome)

/-- The cell-integral loop of `assemble_scalar`
(`assemble_scalar_impl.h:86-93`): accumulate each cell integral's
dispatcher value, threading the (mutated) mesh. -/
def foldCellIntegrals [AddCommMonoid T] (tc : TopologyComputation)
    (coeffs : CoeffArray T) (constant_values : List T) :
    List (FormIntegral T) → T × Mesh → T × Mesh
  | [], p => p
  | I :: rest, p =>
    let r := assemble_cells tc p.2 I.domains I.fn coeffs constant_values
    foldCellIntegrals tc coeffs constant_values rest (p.1 + r.1, r.2)

/-- The exterior-facet loop of `assemble_scalar`
(`assemble_scalar_impl.h:95-104`). -/
def foldExtIntegrals [AddCommMonoid T] (tc : TopologyComputation)
    (coeffs : CoeffArray T) (constant_values : List T) :
    List (FormIntegral T) → T × Mesh → Except AssembleError (T × Mesh)
  | [], p => .ok p
  | I :: rest, p => do
    let r ← assemble_exterior_facets tc p.2 I.domains I.fn coeffs
      constant_values
    foldExtIntegrals tc coeffs constant_values rest (p.1 + r.1, r.2)

/-- The interior-facet loop of `assemble_scalar`
(`assemble_scalar_impl.h:106-116`). -/
def foldIntIntegrals [AddCommMonoid T] (tc : TopologyComputation)
    (coeffs : CoeffArray T) (offsets : List Nat) (constant_values : List T) :
    List (FormIntegral T) → T × Mesh → Except AssembleError (T × Mesh)
  | [], p => .ok p
  | I :: rest, p => do
    let r ← assemble_interior_facets tc p.2 I.domains I.fn coeffs offsets
      constant_values
    foldIntIntegrals tc coeffs offsets constant_values rest (p.1 + r.1, r.2)

/-- Embeds `fem::impl::assemble_scalar` (`assemble_scalar_impl.h:61-119`): check
that all the Form's constants are set (throwing `UnsetConstant` otherwise)
before anything else, concatenate the constant values, then accumulate the
three integral kinds' dispatcher values starting from `T value(0)`. -/
def assemble_scalar [AddCommMonoid T] (tc : TopologyComputation)
    (M : Form T) (mesh : Mesh) : Except AssembleError (T × Mesh) :=
  if M.all_constants_set then
    let constant_values := (M.constants.map (fun c => c.getD [])).flatten
    let p := foldCellIntegrals tc M.coeffs constant_values M.cellIntegrals
      ((0 : T), mesh)
    do
      let q ← foldExtIntegrals tc M.coeffs constant_values M.extIntegrals p
      foldIntIntegrals tc M.coeffs M.offsets constant_values M.intIntegrals q
  else .error .unsetConstant

theorem exceptMap_error {A B E : Type} (g : A → B) (r : Except E A)
    (e : E) (h : Except.map g r = .error e) : r = .error e := by
  cases r with
  | ok a => simp [Except.map] at h
  | error x =>
    simp only [Except.map] at h
    injection h with h1
    rw [h1]

theorem assemble_exterior_facets_error_imp [AddCommMonoid T]
    (tc : TopologyComputation) (mesh : Mesh) (active : List Nat)
    (fn : Kernel T) (coeffs : CoeffArray T) (constant_values : List T)
    (e : AssembleError)
    (h : assemble_exterior_facets tc mesh active fn coeffs constant_values
      = .error e) : e ≠ .unsetConstant := by
  unfold assemble_exterior_facets at h
  dsimp only at h
  split at h
  next =>
    have h2 := exceptMap_error _ _ _ h
    have h3 := extLoop_error_imp _ _ _ _ _ _ _ _ _ _ _ h2
    rw [h3]
    simp
  next =>
    injection h with h1
    simp [← h1]

theorem assemble_interior_facets_error_imp [AddCommMonoid T]
    (tc : TopologyComputation) (mesh : Mesh) (active : List Nat)
    (fn : Kernel T) (coeffs : CoeffArray T) (offsets : List Nat)
    (constant_values : List T) (e : AssembleError)
    (h : assemble_interior_facets tc mesh active fn coeffs offsets
      constant_values = .error e) : e ≠ .unsetConstant := by
  unfold assemble_interior_facets at h
  dsimp only at h
  split at h
  · split at h
    next =>
      have h2 := exceptMap_error _ _ _ h
      have h3 := intLoop_error_imp _ _ _ _ _ _ _ _ _ _ _ _ h2
      rw [h3]
      simp
    next =>
      injection h with h1
      simp [← h1]
  · injection h with h1
    simp [← h1]

theorem foldExtIntegrals_error_imp [AddCommMonoid T]
    (tc : TopologyComputation) (coeffs : CoeffArray T)
    (constant_values : List T) (L : List (FormIntegral T)) (p : T × Mesh)
    (e : AssembleError)
    (h : foldExtIntegrals tc coeffs constant_values L p = .error e) :
    e ≠ .unsetConstant := by
  induction L generalizing p with
  | nil => simp [foldExtIntegrals] at h
  | cons I rest ih =>
    simp only [foldExtIntegrals] at h
    cases hr : assemble_exterior_facets tc p.2 I.domains I.fn coeffs
      constant_values with
    | ok r =>
      rw [hr] at h
      simp only [bind, Except.bind] at h
      exact ih _ h
    | error e1 =>
      rw [hr] at h
      simp only [bind, Except.bind] at h
      injection h with h1
      rw [← h1]
      exact assemble_exterior_facets_error_imp tc p.2 I.domains I.fn coeffs
        constant_values e1 hr

theorem foldIntIntegrals_error_imp [AddCommMonoid T]
    (tc : TopologyComputation) (coeffs : CoeffArray T) (offsets : List Nat)
    (constant_values : List T) (L : List (FormIntegral T)) (p : T × Mesh)
    (e : AssembleError)
    (h : foldIntIntegrals tc coeffs offsets constant_values L p = .error e) :
    e ≠ .unsetConstant := by
  induction L generalizing p with
  | nil => simp [foldIntIntegrals] at h
  | cons I rest ih =>
    simp only [foldIntIntegrals] at h
    cases hr : assemble_interior_facets tc p.2 I.domains I.fn coeffs offsets
      constant_values with
    | ok r =>
      rw [hr] at h
      simp only [bind, Except.bind] at h
      exact ih _ h
    | error e1 =>
      rw [hr] at h
      simp only [bind, Except.bind] at h
      injection h with h1
      rw [← h1]
      exact assemble_interior_facets_error_imp tc p.2 I.domains I.fn coeffs
        offsets constant_values e1 hr

/-- C5. `assemble_scalar` fails with the `UnsetConstant` error exactly
when the Form references a constant without an assigned value; the check
runs before any entity is visited, so the failure is independent of the
integral lists, and when all constants are set the error cannot occur and
the entity loops run. -/
theorem C5_unset_constant_check [AddCommMonoid T] (tc : TopologyComputation)
    (M : Form T) (mesh : Mesh) :
    assemble_scalar tc M mesh = .error .unsetConstant
      ↔ ¬ M.all_constants_set = true := by
  unfold assemble_scalar
  by_cases hset : M.all_constants_set = true
  · rw [if_pos hset]
    constructor
    · intro h
      dsimp only at h
      cases hq : foldExtIntegrals tc M.coeffs
          (M.constants.map (fun c => c.getD [])).flatten M.extIntegrals
          (foldCellIntegrals tc M.coeffs
            (M.constants.map (fun c => c.getD [])).flatten M.cellIntegrals
            ((0 : T), mesh)) with
      | ok q =>
        rw [hq] at h
        simp only [bind, Except.bind] at h
        exact absurd rfl (foldIntIntegrals_error_imp tc M.coeffs M.offsets
          _ M.intIntegrals q _ h)
      | error e1 =>
        rw [hq] at h
        simp only [bind, Except.bind] at h
        injection h with h1
        exact absurd h1 (foldExtIntegrals_error_imp tc M.coeffs _
          M.extIntegrals _ e1 hq)
    · intro hn
      exact absurd hset hn
  · rw [if_neg hset]
    exact ⟨fun _ => hset, fun _ => rfl⟩

/-- C10. For a Form whose integral lists are empty for all three
integral kinds and whose constants are all set, `assemble_scalar` returns
exactly zero — the value `T(0)` the accumulator is initialized to — with
the mesh untouched: no kernel is invoked and no entity is visited. -/
theorem C10_empty_form_yields_zero [AddCommMonoid T]
    (tc : TopologyComputation) (M : Form T) (mesh : Mesh)
    (hset : M.all_constants_set = true)
    (hcell : M.cellIntegrals = [])
    (hext : M.extIntegrals = [])
    (hint : M.intIntegrals = []) :
    assemble_scalar tc M mesh = .ok ((0 : T), mesh) := by
  unfold assemble_scalar
  rw [if_pos hset, hcell, hext, hint]
  simp only [foldCellIntegrals, foldExtIntegrals, foldIntIntegrals, bind,
    Except.bind]

/-- Failure modes of the Mesh query/diagnostic operations:
`notInitialized d` is the `runtime_error` of `Mesh::num_entities`
naming the missing dimension `d` (`Mesh.cpp:159-162`); `emptyMesh` the
`runtime_error` thrown by `cell_h` / `cell_r` on a mesh with no cells
(`Mesh.cpp:34-35,46-47`); `assertFailed` a violated `assert` (the
`block_size == 1` check at `Mesh.cpp:163`). -/
inductive MeshError where
  | notInitialized (d : Nat)
  | emptyMesh
  | assertFailed
deriving DecidableEq, Repr

/-- Embeds `Mesh::num_entities(d)` (`Mesh.cpp:153-165`): fail with
`NotInitialized` naming `d` when the dimension-`d` index map has not been
created; otherwise (after the `block_size == 1` assert) return
`size_local + num_ghosts`. -/
def num_entities (mesh : Mesh) (d : Nat) : Except MeshError Nat :=
  match mesh.topology.index_maps d with
  | none => .error (.notInitialized d)
  | some m =>
    if m.block_size = 1 then .ok (m.size_local + m.num_ghosts)
    else .error .assertFailed

/-- Embeds `cell_h` (`Mesh.cpp:30-40`): the per-cell size array over all local
cells `0, …, num_entities(tdim) - 1`, failing with `EmptyMesh` when there
are no cells.  `hF` stands for `mesh::h` (in `mesh/utils`, not in this
snapshot); modelled from the spec as an opaque per-cell derived metric of
the mesh, the dimension and the cell index. -/
def cell_h (hF : Mesh → Nat → Nat → Rat) (mesh : Mesh) :
    Except MeshError (List Rat) := do
  let dim := mesh.topology.dim
  let num_cells ← num_entities mesh dim
  if num_cells = 0 then .error .emptyMesh
  else .ok ((List.range num_cells).map (hF mesh dim))

/-- Embeds `cell_r` (`Mesh.cpp:42-52`): likewise for the per-cell inradius, `rF`
standing for `mesh::inradius` (not in this snapshot; modelled from the
spec as an opaque per-cell derived metric). -/
def cell_r (rF : Mesh → Nat → Rat) (mesh : Mesh) :
    Except MeshError (List Rat) := do
  let dim := mesh.topology.dim
  let num_cells ← num_entities mesh dim
  if num_cells = 0 then .error .emptyMesh
  else .ok ((List.range num_cells).map (rF mesh))

/-- Eigen `minCoeff()` over a nonempty array, as a left fold. -/
def minCoeff : List Rat → Rat
  | [] => 0
  | x :: xs => xs.foldl min x

/-- Eigen `maxCoeff()` over a nonempty array, as a left fold. -/
def maxCoeff : List Rat → Rat
  | [] => 0
  | x :: xs => xs.foldl max x

/-- Embeds `Mesh::hmin()` (`Mesh.cpp:296`). -/
def hmin (hF : Mesh → Nat → Nat → Rat) (mesh : Mesh) :
    Except MeshError Rat :=
  (cell_h hF mesh).map minCoeff

/-- Embeds `Mesh::hmax()` (`Mesh.cpp:298`). -/
def hmax (hF : Mesh → Nat → Nat → Rat) (mesh : Mesh) :
    Except MeshError Rat :=
  (cell_h hF mesh).map maxCoeff

/-- Embeds `Mesh::rmin()` (`Mesh.cpp:300`). -/
def rmin (rF : Mesh → Nat → Rat) (mesh : Mesh) : Except MeshError Rat :=
  (cell_r rF mesh).map minCoeff

/-- Embeds `Mesh::rmax()` (`Mesh.cpp:302`). -/
def rmax (rF : Mesh → Nat → Rat) (mesh : Mesh) : Except MeshError Rat :=
  (cell_r rF mesh).map maxCoeff

theorem foldl_min_mem (xs : List Rat) :
    ∀ x, xs.foldl min x ∈ x :: xs := by
  induction xs with
  | nil =>
    intro x
    simp
  | cons y ys ih =>
    intro x
    simp only [List.foldl_cons]
    rcases List.mem_cons.mp (ih (min x y)) with h | h
    · rcases min_choice x y with hm | hm
      · rw [List.mem_cons]
        left
        rw [h, hm]
      · rw [List.mem_cons, List.mem_cons]
        right
        left
        rw [h, hm]
    · simp [h]

theorem foldl_min_le (xs : List Rat) :
    ∀ x, ∀ y ∈ x :: xs, xs.foldl min x ≤ y := by
  induction xs with
  | nil =>
    intro x y hy
    simp at hy
    simp [hy]
  | cons z zs ih =>
    intro x y hy
    simp only [List.foldl_cons]
    have hle := ih (min x z) (min x z) (List.mem_cons_self _ _)
    rcases List.mem_cons.mp hy with h | h
    · rw [h]
      exact le_trans hle (min_le_left x z)
    · rcases List.mem_cons.mp h with h1 | h1
      · rw [h1]
        exact le_trans hle (min_le_right x z)
      · exact ih (min x z) y (List.mem_cons_of_mem _ h1)

theorem foldl_max_mem (xs : List Rat) :
    ∀ x, xs.foldl max x ∈ x :: xs := by
  induction xs with
  | nil =>
    intro x
    simp
  | cons y ys ih =>
    intro x
    simp only [List.foldl_cons]
    rcases List.mem_cons.mp (ih (max x y)) with h | h
    · rcases max_choice x y with hm | hm
      · rw [List.mem_cons]
        left
        rw [h, hm]
      · rw [List.mem_cons, List.mem_cons]
        right
        left
        rw [h, hm]
    · simp [h]

theorem foldl_max_ge (xs : List Rat) :
    ∀ x, ∀ y ∈ x :: xs, y ≤ xs.foldl max x := by
  induction xs with
  | nil =>
    intro x y hy
    simp at hy
    simp [hy]
  | cons z zs ih =>
    intro x y hy
    simp only [List.foldl_cons]
    have hge := ih (max x z) (max x z) (List.mem_cons_self _ _)
    rcases List.mem_cons.mp hy with h | h
    · rw [h]
      exact le_trans (le_max_left x z) hge
    · rcases List.mem_cons.mp h with h1 | h1
      · rw [h1]
        exact le_trans (le_max_right x z) hge
      · exact ih (max x z) y (List.mem_cons_of_mem _ h1)

theorem minCoeff_mem (l : List Rat) (h : l ≠ []) : minCoeff l ∈ l := by
  cases l with
  | nil => exact absurd rfl h
  | cons x xs => exact foldl_min_mem xs x

theorem minCoeff_le (l : List Rat) : ∀ y ∈ l, minCoeff l ≤ y := by
  cases l with
  | nil =>
    intro y hy
    simp at hy
  | cons x xs => exact foldl_min_le xs x

theorem maxCoeff_mem (l : List Rat) (h : l ≠ []) : maxCoeff l ∈ l := by
  cases l with
  | nil => exact absurd rfl h
  | cons x xs => exact foldl_max_mem xs x

theorem maxCoeff_ge (l : List Rat) : ∀ y ∈ l, y ≤ maxCoeff l := by
  cases l with
  | nil =>
    intro y hy
    simp at hy
  | cons x xs => exact foldl_max_ge xs x

/-- C8. `Mesh::num_entities(d)` fails with a `NotInitialized` error
naming the missing dimension `d` when the dimension-`d` index map has not
been created; when the index map exists (and its block size passes the
assert) it returns exactly `size_local + num_ghosts` of that map. -/
theorem C8_num_entities (mesh : Mesh) (d : Nat) :
    (mesh.topology.index_maps d = none →
      num_entities mesh d = .error (.notInitialized d)) ∧
    (∀ m, mesh.topology.index_maps d = some m → m.block_size = 1 →
      num_entities mesh d = .ok (m.size_local + m.num_ghosts)) := by
  constructor
  · intro hnone
    unfold num_entities
    rw [hnone]
  · intro m hm hb
    unfold num_entities
    rw [hm]
    simp [hb]

/-- C9. On a mesh whose cell count (at the topological dimension) is
zero, each of `hmin`, `hmax`, `rmin`, `rmax` fails immediately with the
`EmptyMesh` error — no default value is substituted; on a mesh with at
least one cell each returns the corresponding extremum of the per-cell
metric over all local cells `0, …, num_cells - 1`. -/
theorem C9_extremal_metrics_empty_mesh (hF : Mesh → Nat → Nat → Rat)
    (rF : Mesh → Nat → Rat) (mesh : Mesh) (m : IndexMap)
    (hm : mesh.topology.index_maps mesh.topology.dim = some m)
    (hb : m.block_size = 1) :
    (m.size_local + m.num_ghosts = 0 →
      hmin hF mesh = .error .emptyMesh ∧ hmax hF mesh = .error .emptyMesh ∧
      rmin rF mesh = .error .emptyMesh ∧ rmax rF mesh = .error .emptyMesh) ∧
    (0 < m.size_local + m.num_ghosts →
      (∃ v, hmin hF mesh = .ok v
        ∧ v ∈ (List.range (m.size_local + m.num_ghosts)).map
            (hF mesh mesh.topology.dim)
        ∧ ∀ y ∈ (List.range (m.size_local + m.num_ghosts)).map
            (hF mesh mesh.topology.dim), v ≤ y) ∧
      (∃ v, hmax hF mesh = .ok v
        ∧ v ∈ (List.range (m.size_local + m.num_ghosts)).map
            (hF mesh mesh.topology.dim)
        ∧ ∀ y ∈ (List.range (m.size_local + m.num_ghosts)).map
            (hF mesh mesh.topology.dim), y ≤ v) ∧
      (∃ v, rmin rF mesh = .ok v
        ∧ v ∈ (List.range (m.size_local + m.num_ghosts)).map (rF mesh)
        ∧ ∀ y ∈ (List.range (m.size_local + m.num_ghosts)).map (rF mesh),
            v ≤ y) ∧
      (∃ v, rmax rF mesh = .ok v
        ∧ v ∈ (List.range (m.size_local + m.num_ghosts)).map (rF mesh)
        ∧ ∀ y ∈ (List.range (m.size_local + m.num_ghosts)).map (rF mesh),
            y ≤ v)) := by
  have hnum : num_entities mesh mesh.topology.dim
      = .ok (m.size_local + m.num_ghosts) := by
    unfold num_entities
    rw [hm]
    simp [hb]
  constructor
  · intro hzero
    have hch : cell_h hF mesh = .error .emptyMesh := by
      unfold cell_h
      dsimp only
      rw [hnum]
      simp [bind, Except.bind, hzero]
    have hcr : cell_r rF mesh = .error .emptyMesh := by
      unfold cell_r
      dsimp only
      rw [hnum]
      simp [bind, Except.bind, hzero]
    exact ⟨by simp [hmin, hch, Except.map], by simp [hmax, hch, Except.map],
      by simp [rmin, hcr, Except.map], by simp [rmax, hcr, Except.map]⟩
  · intro hpos
    have hne : m.size_local + m.num_ghosts ≠ 0 := by omega
    have hch : cell_h hF mesh
        = .ok ((List.range (m.size_local + m.num_ghosts)).map
            (hF mesh mesh.topology.dim)) := by
      unfold cell_h
      dsimp only
      rw [hnum]
      simp [bind, Except.bind, hne]
    have hcr : cell_r rF mesh
        = .ok ((List.range (m.size_local + m.num_ghosts)).map (rF mesh)) := by
      unfold cell_r
      dsimp only
      rw [hnum]
      simp [bind, Except.bind, hne]
    have hlne : (List.range (m.size_local + m.num_ghosts)).map
        (hF mesh mesh.topology.dim) ≠ [] := by
      simp [List.range_eq_nil]
      omega
    have hlne2 : (List.range (m.size_local + m.num_ghosts)).map (rF mesh)
        ≠ [] := by
      simp [List.range_eq_nil]
      omega
    refine ⟨⟨_, by simp [hmin, hch, Except.map], minCoeff_mem _ hlne,
        minCoeff_le _⟩,
      ⟨_, by simp [hmax, hch, Except.map], maxCoeff_mem _ hlne,
        maxCoeff_ge _⟩,
      ⟨_, by simp [rmin, hcr, Except.map], minCoeff_mem _ hlne2,
        minCoeff_le _⟩,
      ⟨_, by simp [rmax, hcr, Except.map], maxCoeff_mem _ hlne2,
        maxCoeff_ge _⟩⟩

/-- The explicit pre-build sequence of claim C7: create the cell and facet
entities, the facet↔cell connectivity and the permutation data — exactly
what the three dispatchers trigger internally. -/
def prebuild (tc : TopologyComputation) (s : Topology) : Topology :=
  create_entity_permutations tc
    (create_connectivity tc
      (create_entities tc (create_entities tc s s.dim).2 (s.dim - 1)).2
      (s.dim - 1) s.dim)

theorem Topology.cpi_set_conn (s : Topology) (d0 d1 : Nat)
    (a : AdjacencyList) :
    (s.set_conn d0 d1 a).cell_perm_info = s.cell_perm_info := rfl

theorem Topology.fp_set_conn (s : Topology) (d0 d1 : Nat)
    (a : AdjacencyList) : (s.set_conn d0 d1 a).facet_perms = s.facet_perms :=
  rfl

theorem Topology.cpi_set_index_map (s : Topology) (d : Nat) (m : IndexMap) :
    (s.set_index_map d m).cell_perm_info = s.cell_perm_info := rfl

theorem Topology.fp_set_index_map (s : Topology) (d : Nat) (m : IndexMap) :
    (s.set_index_map d m).facet_perms = s.facet_perms := rfl

theorem create_entities_dim (tc : TopologyComputation) (s : Topology)
    (d : Nat) : (create_entities tc s d).2.dim = s.dim := by
  unfold create_entities
  split
  · rfl
  · rcases tc.entitiesCore ((s.conn s.dim 0).getD default) d with ⟨c, e, m⟩
    cases c <;> cases e <;> rfl

theorem create_entities_cpi (tc : TopologyComputation) (s : Topology)
    (d : Nat) :
    (create_entities tc s d).2.cell_perm_info = s.cell_perm_info := by
  unfold create_entities
  split
  · rfl
  · rcases tc.entitiesCore ((s.conn s.dim 0).getD default) d with ⟨c, e, m⟩
    cases c <;> cases e <;> rfl

theorem create_entities_fp (tc : TopologyComputation) (s : Topology)
    (d : Nat) :
    (create_entities tc s d).2.facet_perms = s.facet_perms := by
  unfold create_entities
  split
  · rfl
  · rcases tc.entitiesCore ((s.conn s.dim 0).getD default) d with ⟨c, e, m⟩
    cases c <;> cases e <;> rfl

theorem create_entities_conn_other (tc : TopologyComputation) (s : Topology)
    (d x y : Nat) (h1 : ¬ (x = s.dim ∧ y = d)) (h2 : ¬ (x = d ∧ y = 0)) :
    (create_entities tc s d).2.conn x y = s.conn x y := by
  unfold create_entities
  split
  · rfl
  · rcases tc.entitiesCore ((s.conn s.dim 0).getD default) d with ⟨c, e, m⟩
    cases c <;> cases e <;>
      simp [Topology.conn_set_index_map, Topology.conn_set_conn, h1, h2]

theorem create_entities_fired_conn_Dd (tc : TopologyComputation)
    (s : Topology) (d : Nat) (hnone : s.conn d 0 = none) (hd0 : d ≠ 0) :
    (create_entities tc s d).2.conn s.dim d
      = (match (tc.entitiesCore ((s.conn s.dim 0).getD default) d).1 with
         | some a => some a
         | none => s.conn s.dim d) := by
  unfold create_entities
  rw [hnone]
  simp only [Option.isSome_none, Bool.false_eq_true, if_false]
  rcases tc.entitiesCore ((s.conn s.dim 0).getD default) d with ⟨c, e, m⟩
  have hne : ¬ (s.dim = d ∧ d = 0) := fun h => hd0 h.2
  cases c <;> cases e <;>
    simp [Topology.conn_set_index_map, Topology.conn_set_conn, hne]

theorem create_entities_fired_conn_d0 (tc : TopologyComputation)
    (s : Topology) (d : Nat) (hnone : s.conn d 0 = none) (hd0 : d ≠ 0) :
    (create_entities tc s d).2.conn d 0
      = (match (tc.entitiesCore ((s.conn s.dim 0).getD default) d).2.1 with
         | some a => some a
         | none => none) := by
  unfold create_entities
  rw [hnone]
  simp only [Option.isSome_none, Bool.false_eq_true, if_false]
  rcases tc.entitiesCore ((s.conn s.dim 0).getD default) d with ⟨c, e, m⟩
  cases c <;> cases e <;>
    simp [Topology.conn_set_index_map, Topology.conn_set_conn, hnone, hd0]
      <;> omega

/-- Facet-slot state before `create_entities(tdim - 1)` has run. -/
def pairA (D : Nat) (t : Topology) : Prop :=
  t.conn (D - 1) 0 = none ∧ t.conn (D - 1) D = none
    ∧ t.conn D (D - 1) = none

/-- Facet-slot state after `create_entities(tdim - 1)` but before
`create_connectivity(tdim - 1, tdim)`: the facet→vertex adjacency is the
entity computation's, the (tdim, tdim-1) slot holds its cell→facet
adjacency (when produced), and (tdim-1, tdim) is still absent. -/
def pairB (tc : TopologyComputation) (D : Nat) (cv evV : AdjacencyList)
    (t : Topology) : Prop :=
  t.conn (D - 1) 0 = some evV ∧ t.conn (D - 1) D = none
    ∧ t.conn D (D - 1) = (tc.entitiesCore cv (D - 1)).1

/-- The stable (tdim, tdim-1) slot value after
`create_connectivity(tdim-1, tdim)`: the connectivity computation's
byproduct when produced, otherwise whatever `create_entities(tdim-1)`
installed. -/
def c2fFinal (tc : TopologyComputation) (D : Nat) (cv evV : AdjacencyList) :
    Option AdjacencyList :=
  match (tc.connectivityCore (some evV) (some cv)).2 with
  | some a => some a
  | none => (tc.entitiesCore cv (D - 1)).1

/-- Facet-slot state after `create_connectivity(tdim-1, tdim)`. -/
def pairC (tc : TopologyComputation) (D : Nat) (cv evV : AdjacencyList)
    (t : Topology) : Prop :=
  t.conn (D - 1) 0 = some evV
    ∧ t.conn (D - 1) D = (tc.connectivityCore (some evV) (some cv)).1
    ∧ t.conn D (D - 1) = c2fFinal tc D cv evV

/-- Permutation-data state: either not yet computed, or the canonical
value computed from the cell-vertex connectivity. -/
def permsOk (tc : TopologyComputation) (cv : AdjacencyList) (t : Topology) :
    Prop :=
  (t.cell_perm_info = none ∧ t.facet_perms = none) ∨
  (t.cell_perm_info = some (tc.permutationsCore cv).1
    ∧ t.facet_perms = some (tc.permutationsCore cv).2)

/-- Invariant of the build phase relative to the mesh invariants of a
freshly constructed mesh: the topological dimension is `D ≥ 2`, the
cell-vertex and vertex-vertex connectivity are present and never change,
the entity computation delivers the facet→vertex adjacency of its
contract, and the facet and permutation slots are in one of their
reachable states. -/
structure Inv (tc : TopologyComputation) (D : Nat)
    (cv vv evV : AdjacencyList) (t : Topology) : Prop where
  dim_eq : t.dim = D
  two_le : 2 ≤ D
  ev_eq : (tc.entitiesCore cv (D - 1)).2.1 = some evV
  cv_eq : t.conn D 0 = some cv
  vv_eq : t.conn 0 0 = some vv
  pair : pairA D t ∨ pairB tc D cv evV t ∨ pairC tc D cv evV t
  perms : permsOk tc cv t

theorem inv_ce (tc : TopologyComputation) (D : Nat)
    (cv vv evV : AdjacencyList) (t : Topology)
    (h : Inv tc D cv vv evV t) (d : Nat) (hd : d ≤ D) :
    Inv tc D cv vv evV (create_entities tc t d).2
    ∧ (pairC tc D cv evV t →
        pairC tc D cv evV (create_entities tc t d).2)
    ∧ (d = D - 1 →
        pairB tc D cv evV (create_entities tc t d).2
        ∨ pairC tc D cv evV (create_entities tc t d).2) := by
  by_cases hc : (t.conn d 0).isSome
  · rw [create_entities_of_cached tc t d hc]
    refine ⟨h, fun hp => hp, fun hdd => ?_⟩
    rcases h.pair with hp | hp | hp
    · rw [hdd] at hc
      rw [hp.1] at hc
      simp at hc
    · exact Or.inl hp
    · exact Or.inr hp
  · have hnone : t.conn d 0 = none := by
      cases hcc : t.conn d 0 with
      | none => rfl
      | some a => rw [hcc] at hc; simp at hc
    have hgetd : (t.conn t.dim 0).getD default = cv := by
      rw [h.dim_eq, h.cv_eq]
      rfl
    have hd0 : d ≠ 0 := by
      intro h0
      rw [h0, h.vv_eq] at hnone
      exact Option.noConfusion hnone
    have hdD : d ≠ D := by
      intro h0
      rw [h0, h.cv_eq] at hnone
      exact Option.noConfusion hnone
    have hcpi := create_entities_cpi tc t d
    have hfp := create_entities_fp tc t d
    have hdim := create_entities_dim tc t d
    by_cases hdd : d = D - 1
    · -- first creation of the facet entities: pairA → pairB
      subst hdd
      have hD1 : 0 < D - 1 ∧ D - 1 < D := by
        have := h.two_le
        omega
      have hpa : pairA D t := by
        rcases h.pair with hp | hp | hp
        · exact hp
        · rw [hp.1] at hnone
          exact Option.noConfusion hnone
        · rw [hp.1] at hnone
          exact Option.noConfusion hnone
      have hJ : (create_entities tc t (D - 1)).2.conn (D - 1) 0
          = some evV := by
        rw [create_entities_fired_conn_d0 tc t (D - 1) hnone hd0, hgetd,
          h.ev_eq]
      have hK : (create_entities tc t (D - 1)).2.conn D (D - 1)
          = (tc.entitiesCore cv (D - 1)).1 := by
        have hQ := create_entities_fired_conn_Dd tc t (D - 1) hnone hd0
        rw [hgetd, h.dim_eq] at hQ
        rw [hQ]
        cases hE : (tc.entitiesCore cv (D - 1)).1 with
        | some a => rfl
        | none => exact hpa.2.2
      have hL : (create_entities tc t (D - 1)).2.conn (D - 1) D = none := by
        rw [create_entities_conn_other tc t (D - 1) (D - 1) D
          (by rw [h.dim_eq]; omega) (by omega)]
        exact hpa.2.1
      have hpb : pairB tc D cv evV (create_entities tc t (D - 1)).2 :=
        ⟨hJ, hL, hK⟩
      refine ⟨⟨hdim.trans h.dim_eq, h.two_le, h.ev_eq, ?_, ?_,
          Or.inr (Or.inl hpb), ?_⟩, ?_, fun _ => Or.inl hpb⟩
      · rw [create_entities_conn_other tc t (D - 1) D 0
          (by rw [h.dim_eq]; omega) (by omega)]
        exact h.cv_eq
      · rw [create_entities_conn_other tc t (D - 1) 0 0
          (by rw [h.dim_eq]; omega) (by omega)]
        exact h.vv_eq
      · rw [permsOk, hcpi, hfp]
        exact h.perms
      · intro hp
        rw [hp.1] at hnone
        exact Option.noConfusion hnone
    · -- middle dimension: no tracked slot is written
      have hmid : 0 < d ∧ d < D - 1 := by omega
      have hother : ∀ x y, (x = D ∧ y = 0) ∨ (x = 0 ∧ y = 0)
          ∨ (x = D - 1 ∧ y = 0) ∨ (x = D - 1 ∧ y = D)
          ∨ (x = D ∧ y = D - 1) →
          (create_entities tc t d).2.conn x y = t.conn x y := by
        intro x y hxy
        apply create_entities_conn_other tc t d x y
        · rw [h.dim_eq]
          rcases hxy with h1 | h1 | h1 | h1 | h1 <;> omega
        · rcases hxy with h1 | h1 | h1 | h1 | h1 <;> omega
      have hpair : pairA D (create_entities tc t d).2
          ∨ pairB tc D cv evV (create_entities tc t d).2
          ∨ pairC tc D cv evV (create_entities tc t d).2 := by
        rcases h.pair with hp | hp | hp
        · exact Or.inl ⟨(hother _ _ (by omega)).trans hp.1,
            (hother _ _ (by omega)).trans hp.2.1,
            (hother _ _ (by omega)).trans hp.2.2⟩
        · exact Or.inr (Or.inl ⟨(hother _ _ (by omega)).trans hp.1,
            (hother _ _ (by omega)).trans hp.2.1,
            (hother _ _ (by omega)).trans hp.2.2⟩)
        · exact Or.inr (Or.inr ⟨(hother _ _ (by omega)).trans hp.1,
            (hother _ _ (by omega)).trans hp.2.1,
            (hother _ _ (by omega)).trans hp.2.2⟩)
      refine ⟨⟨hdim.trans h.dim_eq, h.two_le, h.ev_eq,
          (hother _ _ (by omega)).trans h.cv_eq,
          (hother _ _ (by omega)).trans h.vv_eq, hpair, ?_⟩, ?_, ?_⟩
      · rw [permsOk, hcpi, hfp]
        exact h.perms
      · intro hp
        exact ⟨(hother _ _ (by omega)).trans hp.1,
          (hother _ _ (by omega)).trans hp.2.1,
          (hother _ _ (by omega)).trans hp.2.2⟩
      · intro hcon
        exact absurd hcon hdd

theorem Topology.conn_set_interior (s : Topology) (f : List Bool) :
    (s.set_interior_facets f).conn = s.conn := rfl

theorem Topology.cpi_set_interior (s : Topology) (f : List Bool) :
    (s.set_interior_facets f).cell_perm_info = s.cell_perm_info := rfl

theorem Topology.fp_set_interior (s : Topology) (f : List Bool) :
    (s.set_interior_facets f).facet_perms = s.facet_perms := rfl

theorem Topology.dim_set_interior (s : Topology) (f : List Bool) :
    (s.set_interior_facets f).dim = s.dim := rfl

theorem cc_dim (tc : TopologyComputation) (t : Topology) (d0 d1 : Nat) :
    (create_connectivity tc t d0 d1).dim = t.dim := by
  unfold create_connectivity
  dsimp only
  cases (compute_connectivity tc
      (create_entities tc (create_entities tc t d0).2 d1).2 d0 d1).1 <;>
    cases (compute_connectivity tc
      (create_entities tc (create_entities tc t d0).2 d1).2 d0 d1).2 <;>
    split <;>
    simp [Topology.dim_set_interior, Topology.dim_set_conn,
      create_entities_dim]

theorem cc_cpi (tc : TopologyComputation) (t : Topology) (d0 d1 : Nat) :
    (create_connectivity tc t d0 d1).cell_perm_info = t.cell_perm_info := by
  unfold create_connectivity
  dsimp only
  cases (compute_connectivity tc
      (create_entities tc (create_entities tc t d0).2 d1).2 d0 d1).1 <;>
    cases (compute_connectivity tc
      (create_entities tc (create_entities tc t d0).2 d1).2 d0 d1).2 <;>
    split <;>
    simp [Topology.cpi_set_interior, Topology.cpi_set_conn,
      create_entities_cpi]

theorem cc_fp (tc : TopologyComputation) (t : Topology) (d0 d1 : Nat) :
    (create_connectivity tc t d0 d1).facet_perms = t.facet_perms := by
  unfold create_connectivity
  dsimp only
  cases (compute_connectivity tc
      (create_entities tc (create_entities tc t d0).2 d1).2 d0 d1).1 <;>
    cases (compute_connectivity tc
      (create_entities tc (create_entities tc t d0).2 d1).2 d0 d1).2 <;>
    split <;>
    simp [Topology.fp_set_interior, Topology.fp_set_conn,
      create_entities_fp]

theorem cc_conn_other (tc : TopologyComputation) (t : Topology)
    (d0 d1 x y : Nat) (h0 : ¬ (x = d0 ∧ y = d1)) (h1 : ¬ (x = d1 ∧ y = d0)) :
    (create_connectivity tc t d0 d1).conn x y
      = (create_entities tc (create_entities tc t d0).2 d1).2.conn x y := by
  unfold create_connectivity
  dsimp only
  cases (compute_connectivity tc
      (create_entities tc (create_entities tc t d0).2 d1).2 d0 d1).1 <;>
    cases (compute_connectivity tc
      (create_entities tc (create_entities tc t d0).2 d1).2 d0 d1).2 <;>
    split <;>
    simp [Topology.conn_set_interior, Topology.conn_set_conn, h0, h1]

theorem cc_conn_d0d1 (tc : TopologyComputation) (t : Topology)
    (d0 d1 : Nat) (hne : d0 ≠ d1) :
    (create_connectivity tc t d0 d1).conn d0 d1
      = (match (compute_connectivity tc
          (create_entities tc (create_entities tc t d0).2 d1).2 d0 d1).1 with
         | some a => some a
         | none =>
           (create_entities tc
             (create_entities tc t d0).2 d1).2.conn d0 d1) := by
  unfold create_connectivity
  dsimp only
  have hx : ¬ (d0 = d1 ∧ d1 = d0) := fun hc => hne hc.1
  cases (compute_connectivity tc
      (create_entities tc (create_entities tc t d0).2 d1).2 d0 d1).1 <;>
    cases (compute_connectivity tc
      (create_entities tc (create_entities tc t d0).2 d1).2 d0 d1).2 <;>
    split <;>
    simp [Topology.conn_set_interior, Topology.conn_set_conn, hx]

theorem cc_conn_d1d0 (tc : TopologyComputation) (t : Topology)
    (d0 d1 : Nat) (hne : d1 ≠ d0) :
    (create_connectivity tc t d0 d1).conn d1 d0
      = (match (compute_connectivity tc
          (create_entities tc (create_entities tc t d0).2 d1).2 d0 d1).2 with
         | some a => some a
         | none =>
           (create_entities tc
             (create_entities tc t d0).2 d1).2.conn d1 d0) := by
  unfold create_connectivity
  dsimp only
  have hx : ¬ (d1 = d0 ∧ d0 = d1) := fun hc => hne hc.1
  cases (compute_connectivity tc
      (create_entities tc (create_entities tc t d0).2 d1).2 d0 d1).1 <;>
    cases (compute_connectivity tc
      (create_entities tc (create_entities tc t d0).2 d1).2 d0 d1).2 <;>
    split <;>
    simp [Topology.conn_set_interior, Topology.conn_set_conn, hx]

theorem inv_cc (tc : TopologyComputation) (D : Nat)
    (cv vv evV : AdjacencyList) (t : Topology)
    (h : Inv tc D cv vv evV t) :
    Inv tc D cv vv evV (create_connectivity tc t (D - 1) D)
    ∧ pairC tc D cv evV (create_connectivity tc t (D - 1) D) := by
  have hD := h.two_le
  obtain ⟨hsaInv, -, hsaBC⟩ := inv_ce tc D cv vv evV t h (D - 1) (by omega)
  have hBC := hsaBC rfl
  have hcach : ((create_entities tc t (D - 1)).2.conn D 0).isSome := by
    rw [hsaInv.cv_eq]
    rfl
  have hsb : (create_entities tc (create_entities tc t (D - 1)).2 D).2
      = (create_entities tc t (D - 1)).2 := by
    rw [create_entities_of_cached tc _ D hcach]
  have hdim : (create_connectivity tc t (D - 1) D).dim = D :=
    (cc_dim tc t (D - 1) D).trans h.dim_eq
  have hcv : (create_connectivity tc t (D - 1) D).conn D 0 = some cv := by
    rw [cc_conn_other tc t (D - 1) D D 0 (by omega) (by omega), hsb]
    exact hsaInv.cv_eq
  have hvv : (create_connectivity tc t (D - 1) D).conn 0 0 = some vv := by
    rw [cc_conn_other tc t (D - 1) D 0 0 (by omega) (by omega), hsb]
    exact hsaInv.vv_eq
  have hperm : permsOk tc cv (create_connectivity tc t (D - 1) D) := by
    rw [permsOk, cc_cpi, cc_fp]
    exact h.perms
  have h3 : (create_connectivity tc t (D - 1) D).conn (D - 1) 0
      = some evV := by
    rw [cc_conn_other tc t (D - 1) D (D - 1) 0 (by omega) (by omega), hsb]
    rcases hBC with hB | hC
    · exact hB.1
    · exact hC.1
  rcases hBC with hB | hC
  · have hcc : compute_connectivity tc (create_entities tc t (D - 1)).2
        (D - 1) D = tc.connectivityCore (some evV) (some cv) := by
      unfold compute_connectivity
      rw [hB.2.1]
      simp only [Option.isSome_none, Bool.false_eq_true, if_false]
      rw [hB.1, hsaInv.cv_eq]
    have h1 : (create_connectivity tc t (D - 1) D).conn (D - 1) D
        = (tc.connectivityCore (some evV) (some cv)).1 := by
      rw [cc_conn_d0d1 tc t (D - 1) D (by omega), hsb, hcc]
      cases hc : (tc.connectivityCore (some evV) (some cv)).1 with
      | some a => rfl
      | none => exact hB.2.1
    have h2 : (create_connectivity tc t (D - 1) D).conn D (D - 1)
        = c2fFinal tc D cv evV := by
      rw [cc_conn_d1d0 tc t (D - 1) D (by omega), hsb, hcc]
      unfold c2fFinal
      cases hc : (tc.connectivityCore (some evV) (some cv)).2 with
      | some a => rfl
      | none => exact hB.2.2
    have hpc : pairC tc D cv evV (create_connectivity tc t (D - 1) D) :=
      ⟨h3, h1, h2⟩
    exact ⟨⟨hdim, h.two_le, h.ev_eq, hcv, hvv, Or.inr (Or.inr hpc), hperm⟩,
      hpc⟩
  · cases hc01 : (tc.connectivityCore (some evV) (some cv)).1 with
    | some a =>
      have hcc : compute_connectivity tc (create_entities tc t (D - 1)).2
          (D - 1) D = (none, none) := by
        unfold compute_connectivity
        rw [hC.2.1, hc01]
        rfl
      have h1 : (create_connectivity tc t (D - 1) D).conn (D - 1) D
          = (tc.connectivityCore (some evV) (some cv)).1 := by
        rw [cc_conn_d0d1 tc t (D - 1) D (by omega), hsb, hcc]
        exact hC.2.1
      have h2 : (create_connectivity tc t (D - 1) D).conn D (D - 1)
          = c2fFinal tc D cv evV := by
        rw [cc_conn_d1d0 tc t (D - 1) D (by omega), hsb, hcc]
        exact hC.2.2
      have hpc : pairC tc D cv evV (create_connectivity tc t (D - 1) D) :=
        ⟨h3, h1, h2⟩
      exact ⟨⟨hdim, h.two_le, h.ev_eq, hcv, hvv, Or.inr (Or.inr hpc),
        hperm⟩, hpc⟩
    | none =>
      have hnil : (create_entities tc t (D - 1)).2.conn (D - 1) D = none :=
        by
        rw [hC.2.1, hc01]
      have hcc : compute_connectivity tc (create_entities tc t (D - 1)).2
          (D - 1) D = tc.connectivityCore (some evV) (some cv) := by
        unfold compute_connectivity
        rw [hnil]
        simp only [Option.isSome_none, Bool.false_eq_true, if_false]
        rw [hC.1, hsaInv.cv_eq]
      have h1 : (create_connectivity tc t (D - 1) D).conn (D - 1) D
          = (tc.connectivityCore (some evV) (some cv)).1 := by
        rw [cc_conn_d0d1 tc t (D - 1) D (by omega), hsb, hcc, hc01, hnil]
      have h2 : (create_connectivity tc t (D - 1) D).conn D (D - 1)
          = c2fFinal tc D cv evV := by
        rw [cc_conn_d1d0 tc t (D - 1) D (by omega), hsb, hcc]
        cases hc10 : (tc.connectivityCore (some evV) (some cv)).2 with
        | some a =>
          rw [c2fFinal, hc10]
        | none => exact hC.2.2
      have hpc : pairC tc D cv evV (create_connectivity tc t (D - 1) D) :=
        ⟨h3, h1, h2⟩
      exact ⟨⟨hdim, h.two_le, h.ev_eq, hcv, hvv, Or.inr (Or.inr hpc),
        hperm⟩, hpc⟩

theorem inv_tcep (tc : TopologyComputation) (D : Nat)
    (cv vv evV : AdjacencyList) (t : Topology)
    (h : Inv tc D cv vv evV t) :
    Inv tc D cv vv evV (topology_create_entity_permutations tc t)
    ∧ (topology_create_entity_permutations tc t).cell_perm_info
        = some (tc.permutationsCore cv).1
    ∧ (topology_create_entity_permutations tc t).facet_perms
        = some (tc.permutationsCore cv).2
    ∧ (pairC tc D cv evV t →
        pairC tc D cv evV (topology_create_entity_permutations tc t)) := by
  unfold topology_create_entity_permutations
  by_cases hc : t.cell_perm_info.isSome
  · rw [if_pos hc]
    rcases h.perms with hp | hp
    · rw [hp.1] at hc
      simp at hc
    · exact ⟨h, hp.1, hp.2, fun hpc => hpc⟩
  · rw [if_neg hc]
    have hgetd : (t.conn t.dim 0).getD default = cv := by
      rw [h.dim_eq, h.cv_eq]
      rfl
    rw [hgetd]
    refine ⟨⟨h.dim_eq, h.two_le, h.ev_eq, h.cv_eq, h.vv_eq, h.pair, ?_⟩,
      rfl, rfl, fun hpc => hpc⟩
    exact Or.inr ⟨rfl, rfl⟩

theorem inv_ce_fold (tc : TopologyComputation) (D : Nat)
    (cv vv evV : AdjacencyList) (L : List Nat) (t : Topology)
    (hL : ∀ d ∈ L, d ≤ D) (h : Inv tc D cv vv evV t) :
    Inv tc D cv vv evV
      (L.foldl (fun u d => (create_entities tc u d).2) t)
    ∧ (pairC tc D cv evV t →
        pairC tc D cv evV
          (L.foldl (fun u d => (create_entities tc u d).2) t)) := by
  induction L generalizing t with
  | nil => exact ⟨h, fun hp => hp⟩
  | cons d rest ih =>
    obtain ⟨h1, h2, -⟩ := inv_ce tc D cv vv evV t h d
      (hL d (List.mem_cons_self d rest))
    obtain ⟨h3, h4⟩ := ih _ (fun d' hd' => hL d' (List.mem_cons_of_mem d hd'))
      h1
    exact ⟨h3, fun hp => h4 (h2 hp)⟩

theorem inv_cep (tc : TopologyComputation) (D : Nat)
    (cv vv evV : AdjacencyList) (t : Topology)
    (h : Inv tc D cv vv evV t) :
    Inv tc D cv vv evV (create_entity_permutations tc t)
    ∧ (create_entity_permutations tc t).cell_perm_info
        = some (tc.permutationsCore cv).1
    ∧ (create_entity_permutations tc t).facet_perms
        = some (tc.permutationsCore cv).2
    ∧ (pairC tc D cv evV t →
        pairC tc D cv evV (create_entity_permutations tc t)) := by
  unfold create_entity_permutations
  rw [h.dim_eq]
  obtain ⟨h1, h2⟩ := inv_ce_fold tc D cv vv evV (List.range D) t
    (fun d hd => le_of_lt (List.mem_range.mp hd)) h
  obtain ⟨h3, h4, h5, h6⟩ := inv_tcep tc D cv vv evV _ h1
  exact ⟨h3, h4, h5, fun hp => h6 (h2 hp)⟩

theorem inv_buildCells (tc : TopologyComputation) (D : Nat)
    (cv vv evV : AdjacencyList) (t : Topology)
    (h : Inv tc D cv vv evV t) :
    Inv tc D cv vv evV (buildCells tc t)
    ∧ (buildCells tc t).cell_perm_info = some (tc.permutationsCore cv).1
    ∧ (pairC tc D cv evV t → pairC tc D cv evV (buildCells tc t)) := by
  unfold buildCells
  rw [h.dim_eq, create_entities_of_cached tc t D (by rw [h.cv_eq]; rfl)]
  obtain ⟨h1, h2, -, h4⟩ := inv_cep tc D cv vv evV t h
  exact ⟨h1, h2, h4⟩

theorem inv_buildFacets (tc : TopologyComputation) (D : Nat)
    (cv vv evV : AdjacencyList) (t : Topology)
    (h : Inv tc D cv vv evV t) :
    Inv tc D cv vv evV (buildFacets tc t)
    ∧ pairC tc D cv evV (buildFacets tc t)
    ∧ (buildFacets tc t).cell_perm_info = some (tc.permutationsCore cv).1
    ∧ (buildFacets tc t).facet_perms = some (tc.permutationsCore cv).2 := by
  unfold buildFacets
  rw [h.dim_eq]
  obtain ⟨h1, -, -⟩ := inv_ce tc D cv vv evV t h (D - 1)
    (by have := h.two_le; omega)
  have hccA := inv_cc tc D cv vv evV _ h1
  obtain ⟨h3, h4, h5, h6⟩ := inv_cep tc D cv vv evV _ hccA.1
  exact ⟨h3, h6 hccA.2, h4, h5⟩

theorem inv_prebuild (tc : TopologyComputation) (D : Nat)
    (cv vv evV : AdjacencyList) (t : Topology)
    (h : Inv tc D cv vv evV t) :
    Inv tc D cv vv evV (prebuild tc t) := by
  unfold prebuild
  rw [h.dim_eq, create_entities_of_cached tc t D (by rw [h.cv_eq]; rfl)]
  obtain ⟨h1, -, -⟩ := inv_ce tc D cv vv evV t h (D - 1)
    (by have := h.two_le; omega)
  have hccA := inv_cc tc D cv vv evV _ h1
  exact (inv_cep tc D cv vv evV _ hccA.1).1

/-- The exterior-facet dispatcher's value on a built topology, expressed
through the canonical cached components only. -/
def extValue [AddCommMonoid T] (tc : TopologyComputation) (D : Nat)
    (cv evV : AdjacencyList) (geo : Geometry) (fn : Kernel T)
    (coeffs : CoeffArray T) (constant_values : List T) (active : List Nat) :
    Except AssembleError T :=
  match (tc.connectivityCore (some evV) (some cv)).1,
        c2fFinal tc D cv evV with
  | some f2c, some c2f =>
    extLoop geo f2c c2f (tc.permutationsCore cv).2 (tc.permutationsCore cv).1
      fn coeffs constant_values active 0
  | _, _ => .error .missingConnectivity

/-- The interior-facet dispatcher's value on a built topology, expressed
through the canonical cached components only. -/
def intValue [AddCommMonoid T] (tc : TopologyComputation) (D : Nat)
    (cv evV : AdjacencyList) (geo : Geometry) (fn : Kernel T)
    (coeffs : CoeffArray T) (offsets : List Nat) (constant_values : List T)
    (active : List Nat) : Except AssembleError T :=
  if offsets.getLastD 0 = coeffs.cols then
    match (tc.connectivityCore (some evV) (some cv)).1,
          c2fFinal tc D cv evV with
    | some f2c, some c2f =>
      intLoop geo f2c c2f (tc.permutationsCore cv).2
        (tc.permutationsCore cv).1 fn coeffs offsets constant_values active 0
    | _, _ => .error .missingConnectivity
  else .error .offsetsMismatch

theorem assemble_cells_canonical [AddCommMonoid T]
    (tc : TopologyComputation) (D : Nat) (cv vv evV : AdjacencyList)
    (t : Topology) (geo : Geometry) (active : List Nat) (fn : Kernel T)
    (coeffs : CoeffArray T) (constant_values : List T)
    (h : Inv tc D cv vv evV t) :
    assemble_cells tc ⟨t, geo⟩ active fn coeffs constant_values
      = (cellLoop geo (tc.permutationsCore cv).1 fn coeffs constant_values
          active 0,
         ⟨buildCells tc t, geo⟩) := by
  unfold assemble_cells
  dsimp only
  rw [(inv_buildCells tc D cv vv evV t h).2.1]
  rfl

theorem assemble_ext_canonical [AddCommMonoid T]
    (tc : TopologyComputation) (D : Nat) (cv vv evV : AdjacencyList)
    (t : Topology) (geo : Geometry) (active : List Nat) (fn : Kernel T)
    (coeffs : CoeffArray T) (constant_values : List T)
    (h : Inv tc D cv vv evV t) :
    assemble_exterior_facets tc ⟨t, geo⟩ active fn coeffs constant_values
      = Except.map (fun v => (v, ⟨buildFacets tc t, geo⟩))
          (extValue tc D cv evV geo fn coeffs constant_values active) := by
  obtain ⟨hI, hPC, hcpi, hfp⟩ := inv_buildFacets tc D cv vv evV t h
  unfold assemble_exterior_facets
  dsimp only
  rw [hI.dim_eq, hPC.2.1, hPC.2.2, hcpi, hfp]
  unfold extValue
  cases hc1 : (tc.connectivityCore (some evV) (some cv)).1 with
  | some f2c =>
    cases hc2 : c2fFinal tc D cv evV with
    | some c2f => rfl
    | none => rfl
  | none =>
    cases hc2 : c2fFinal tc D cv evV with
    | some c2f => rfl
    | none => rfl

theorem assemble_int_canonical [AddCommMonoid T]
    (tc : TopologyComputation) (D : Nat) (cv vv evV : AdjacencyList)
    (t : Topology) (geo : Geometry) (active : List Nat) (fn : Kernel T)
    (coeffs : CoeffArray T) (offsets : List Nat) (constant_values : List T)
    (h : Inv tc D cv vv evV t) :
    assemble_interior_facets tc ⟨t, geo⟩ active fn coeffs offsets
        constant_values
      = Except.map (fun v => (v, ⟨buildFacets tc t, geo⟩))
          (intValue tc D cv evV geo fn coeffs offsets constant_values
            active) := by
  obtain ⟨hI, hPC, hcpi, hfp⟩ := inv_buildFacets tc D cv vv evV t h
  unfold assemble_interior_facets
  dsimp only
  rw [hI.dim_eq, hPC.2.1, hPC.2.2, hcpi, hfp]
  unfold intValue
  by_cases hcols : offsets.getLastD 0 = coeffs.cols
  · rw [if_pos hcols, if_pos hcols]
    cases hc1 : (tc.connectivityCore (some evV) (some cv)).1 with
    | some f2c =>
      cases hc2 : c2fFinal tc D cv evV with
      | some c2f => rfl
      | none => rfl
    | none =>
      cases hc2 : c2fFinal tc D cv evV with
      | some c2f => rfl
      | none => rfl
  · rw [if_neg hcols, if_neg hcols]
    rfl

/-- The exterior-facet integral loop's value through canonical components. -/
def extFoldValue [AddCommMonoid T] (tc : TopologyComputation) (D : Nat)
    (cv evV : AdjacencyList) (geo : Geometry) (coeffs : CoeffArray T)
    (constant_values : List T) :
    List (FormIntegral T) → T → Except AssembleError T
  | [], v => .ok v
  | I :: rest, v =>
    match extValue tc D cv evV geo I.fn coeffs constant_values I.domains with
    | .ok w => extFoldValue tc D cv evV geo coeffs constant_values rest
        (v + w)
    | .error e => .error e

/-- The interior-facet integral loop's value through canonical components. -/
def intFoldValue [AddCommMonoid T] (tc : TopologyComputation) (D : Nat)
    (cv evV : AdjacencyList) (geo : Geometry) (coeffs : CoeffArray T)
    (offsets : List Nat) (constant_values : List T) :
    List (FormIntegral T) → T → Except AssembleError T
  | [], v => .ok v
  | I :: rest, v =>
    match intValue tc D cv evV geo I.fn coeffs offsets constant_values
        I.domains with
    | .ok w => intFoldValue tc D cv evV geo coeffs offsets constant_values
        rest (v + w)
    | .error e => .error e

theorem foldCells_main [AddCommMonoid T] (tc : TopologyComputation)
    (D : Nat) (cv vv evV : AdjacencyList) (geo : Geometry)
    (coeffs : CoeffArray T) (constant_values : List T)
    (L : List (FormIntegral T)) :
    ∀ (t : Topology) (v : T), Inv tc D cv vv evV t →
      (foldCellIntegrals tc coeffs constant_values L (v, ⟨t, geo⟩)).1
        = L.foldl
            (fun w I => w + cellLoop geo (tc.permutationsCore cv).1 I.fn
              coeffs constant_values I.domains 0) v
      ∧ Inv tc D cv vv evV
          (foldCellIntegrals tc coeffs constant_values L
            (v, ⟨t, geo⟩)).2.topology
      ∧ (foldCellIntegrals tc coeffs constant_values L
          (v, ⟨t, geo⟩)).2.geometry = geo := by
  induction L with
  | nil =>
    intro t v h
    exact ⟨rfl, h, rfl⟩
  | cons I rest ih =>
    intro t v h
    have hstep := assemble_cells_canonical tc D cv vv evV t geo I.domains
      I.fn coeffs constant_values h
    simp only [foldCellIntegrals, hstep, List.foldl_cons]
    exact ih (buildCells tc t) _ (inv_buildCells tc D cv vv evV t h).1

theorem foldExt_main [AddCommMonoid T] (tc : TopologyComputation)
    (D : Nat) (cv vv evV : AdjacencyList) (geo : Geometry)
    (coeffs : CoeffArray T) (constant_values : List T)
    (L : List (FormIntegral T)) :
    ∀ (t : Topology) (v : T), Inv tc D cv vv evV t →
      Except.map Prod.fst
          (foldExtIntegrals tc coeffs constant_values L (v, ⟨t, geo⟩))
        = extFoldValue tc D cv evV geo coeffs constant_values L v
      ∧ (∀ w m, foldExtIntegrals tc coeffs constant_values L (v, ⟨t, geo⟩)
          = .ok (w, m) →
          Inv tc D cv vv evV m.topology ∧ m.geometry = geo) := by
  induction L with
  | nil =>
    intro t v h
    refine ⟨rfl, ?_⟩
    intro w m hok
    simp only [foldExtIntegrals] at hok
    injection hok with h1
    have h2 : ({ topology := t, geometry := geo } : Mesh) = m :=
      congrArg Prod.snd h1
    rw [← h2]
    exact ⟨h, rfl⟩
  | cons I rest ih =>
    intro t v h
    have hstep := assemble_ext_canonical tc D cv vv evV t geo I.domains
      I.fn coeffs constant_values h
    simp only [foldExtIntegrals, hstep, extFoldValue]
    cases hv : extValue tc D cv evV geo I.fn coeffs constant_values
        I.domains with
    | ok w =>
      simp only [Except.map, bind, Except.bind]
      exact ih (buildFacets tc t) _ (inv_buildFacets tc D cv vv evV t h).1
    | error e =>
      simp only [Except.map, bind, Except.bind]
      exact ⟨trivial, fun w m hok => Except.noConfusion hok⟩

theorem foldInt_main [AddCommMonoid T] (tc : TopologyComputation)
    (D : Nat) (cv vv evV : AdjacencyList) (geo : Geometry)
    (coeffs : CoeffArray T) (offsets : List Nat) (constant_values : List T)
    (L : List (FormIntegral T)) :
    ∀ (t : Topology) (v : T), Inv tc D cv vv evV t →
      Except.map Prod.fst
          (foldIntIntegrals tc coeffs offsets constant_values L
            (v, ⟨t, geo⟩))
        = intFoldValue tc D cv evV geo coeffs offsets constant_values L v :=
  by
  induction L with
  | nil =>
    intro t v h
    rfl
  | cons I rest ih =>
    intro t v h
    have hstep := assemble_int_canonical tc D cv vv evV t geo I.domains
      I.fn coeffs offsets constant_values h
    simp only [foldIntIntegrals, hstep, intFoldValue]
    cases hv : intValue tc D cv evV geo I.fn coeffs offsets constant_values
        I.domains with
    | ok w =>
      simp only [Except.map, bind, Except.bind]
      exact ih (buildFacets tc t) _ (inv_buildFacets tc D cv vv evV t h).1
    | error e =>
      simp only [Except.map, bind, Except.bind]

theorem scalar_tail_same [AddCommMonoid T] (tc : TopologyComputation)
    (D : Nat) (cv vv evV : AdjacencyList) (geo : Geometry)
    (coeffs : CoeffArray T) (offsets : List Nat) (constant_values : List T)
    (E I1 : List (FormIntegral T)) (t t1 : Topology) (v : T)
    (h : Inv tc D cv vv evV t) (h1 : Inv tc D cv vv evV t1) :
    Except.map Prod.fst
      (bind (foldExtIntegrals tc coeffs constant_values E (v, ⟨t, geo⟩))
        (fun q =>
          foldIntIntegrals tc coeffs offsets constant_values I1 q))
      = Except.map Prod.fst
        (bind (foldExtIntegrals tc coeffs constant_values E (v, ⟨t1, geo⟩))
          (fun q =>
            foldIntIntegrals tc coeffs offsets constant_values I1 q)) := by
  obtain ⟨he1, he2⟩ := foldExt_main tc D cv vv evV geo coeffs
    constant_values E t v h
  obtain ⟨hf1, hf2⟩ := foldExt_main tc D cv vv evV geo coeffs
    constant_values E t1 v h1
  cases hr : foldExtIntegrals tc coeffs constant_values E (v, ⟨t, geo⟩) with
  | error e =>
    rw [hr] at he1
    simp only [Except.map] at he1
    cases hr1 : foldExtIntegrals tc coeffs constant_values E
        (v, ⟨t1, geo⟩) with
    | error e1 =>
      rw [hr1] at hf1
      simp only [Except.map] at hf1
      rw [← he1] at hf1
      injection hf1 with hee
      simp only [bind, Except.bind, Except.map]
      rw [hee]
    | ok q1 =>
      rw [hr1] at hf1
      simp only [Except.map] at hf1
      rw [← he1] at hf1
      exact Except.noConfusion hf1
  | ok q =>
    rw [hr] at he1
    simp only [Except.map] at he1
    obtain ⟨hq2, hq3⟩ := he2 q.1 q.2 (by rw [hr])
    cases hr1 : foldExtIntegrals tc coeffs constant_values E
        (v, ⟨t1, geo⟩) with
    | error e1 =>
      rw [hr1] at hf1
      simp only [Except.map] at hf1
      rw [← he1] at hf1
      exact Except.noConfusion hf1
    | ok q1 =>
      rw [hr1] at hf1
      simp only [Except.map] at hf1
      rw [← he1] at hf1
      injection hf1 with hqq
      obtain ⟨hq2', hq3'⟩ := hf2 q1.1 q1.2 (by rw [hr1])
      simp only [bind, Except.bind]
      have hqm : q = (q.1, (⟨q.2.topology, geo⟩ : Mesh)) := by
        rw [← hq3]
      have hqm1 : q1 = (q1.1, (⟨q1.2.topology, geo⟩ : Mesh)) := by
        rw [← hq3']
      rw [hqm, hqm1]
      rw [foldInt_main tc D cv vv evV geo coeffs offsets constant_values I1
        q.2.topology q.1 hq2]
      rw [foldInt_main tc D cv vv evV geo coeffs offsets constant_values I1
        q1.2.topology q1.1 hq2']
      rw [hqq]

/-- C7. Assembly does not require the caller to pre-build topology:
every dispatcher triggers `create_entities` / `create_connectivity` /
`create_entity_permutations` itself, so assembling a Form on a freshly
constructed mesh (cell-vertex and vertex connectivity present, nothing
else built) returns the same scalar — and the same error, if any — as
assembling after explicitly pre-creating all required entities,
connectivity and permutations.  The entity computation is assumed to
deliver the facet→vertex adjacency of its contract
(`hev`); `Except.map Prod.fst` projects the dispatcher outcome onto the
assembled value. -/
theorem C7_lazy_build_equals_prebuild [AddCommMonoid T]
    (tc : TopologyComputation) (M : Form T) (geo : Geometry) (s0 : Topology)
    (cv vv evV : AdjacencyList)
    (hD : 2 ≤ s0.dim)
    (hcv : s0.conn s0.dim 0 = some cv)
    (hvv : s0.conn 0 0 = some vv)
    (hev : (tc.entitiesCore cv (s0.dim - 1)).2.1 = some evV)
    (hf1 : s0.conn (s0.dim - 1) 0 = none)
    (hf2 : s0.conn (s0.dim - 1) s0.dim = none)
    (hf3 : s0.conn s0.dim (s0.dim - 1) = none)
    (hf4 : s0.cell_perm_info = none)
    (hf5 : s0.facet_perms = none) :
    Except.map Prod.fst (assemble_scalar tc M ⟨s0, geo⟩)
      = Except.map Prod.fst
          (assemble_scalar tc M ⟨prebuild tc s0, geo⟩) := by
  have hInv : Inv tc s0.dim cv vv evV s0 :=
    ⟨rfl, hD, hev, hcv, hvv, Or.inl ⟨hf1, hf2, hf3⟩, Or.inl ⟨hf4, hf5⟩⟩
  have hInv2 : Inv tc s0.dim cv vv evV (prebuild tc s0) :=
    inv_prebuild tc s0.dim cv vv evV s0 hInv
  unfold assemble_scalar
  by_cases hset : M.all_constants_set = true
  · rw [if_pos hset, if_pos hset]
    dsimp only
    obtain ⟨hc1, hc2, hc3⟩ := foldCells_main tc s0.dim cv vv evV geo
      M.coeffs ((M.constants.map (fun c => c.getD [])).flatten)
      M.cellIntegrals s0 0 hInv
    obtain ⟨hd1, hd2, hd3⟩ := foldCells_main tc s0.dim cv vv evV geo
      M.coeffs ((M.constants.map (fun c => c.getD [])).flatten)
      M.cellIntegrals (prebuild tc s0) 0 hInv2
    set q0 := foldCellIntegrals tc M.coeffs
      ((M.constants.map (fun c => c.getD [])).flatten) M.cellIntegrals
      ((0 : T), ⟨s0, geo⟩) with hq0
    set q1 := foldCellIntegrals tc M.coeffs
      ((M.constants.map (fun c => c.getD [])).flatten) M.cellIntegrals
      ((0 : T), ⟨prebuild tc s0, geo⟩) with hq1
    have hx0 : q0.2 = (⟨q0.2.topology, geo⟩ : Mesh) := by
      have e1 : (⟨q0.2.topology, q0.2.geometry⟩ : Mesh)
          = (⟨q0.2.topology, geo⟩ : Mesh) := by
        rw [hc3]
      exact e1
    have hx1 : q1.2 = (⟨q1.2.topology, geo⟩ : Mesh) := by
      have e1 : (⟨q1.2.topology, q1.2.geometry⟩ : Mesh)
          = (⟨q1.2.topology, geo⟩ : Mesh) := by
        rw [hd3]
      exact e1
    have hpm : q0 = (q0.1, (⟨q0.2.topology, geo⟩ : Mesh)) := by
      rw [← hx0]
    have hpm2 : q1 = (q1.1, (⟨q1.2.topology, geo⟩ : Mesh)) := by
      rw [← hx1]
    rw [hpm, hpm2, hc1, hd1]
    exact scalar_tail_same tc s0.dim cv vv evV geo M.coeffs M.offsets
      ((M.constants.map (fun c => c.getD [])).flatten) M.extIntegrals
      M.intIntegrals _ _ _ hc2 hd2
  · rw [if_neg hset, if_neg hset]

/-- Concrete cell-vertex connectivity used by the witnesses. -/
def wAdj : AdjacencyList := ⟨[[0, 1, 2]]⟩

/-- Concrete index map used by the witnesses. -/
def wIm : IndexMap := ⟨1, 0, 1, 1⟩

/-- Concrete topology-computation instance used by the witnesses. -/
def wTc : TopologyComputation :=
  ⟨fun _ _ => (some ⟨[[0]]⟩, some ⟨[[0], [0]]⟩, wIm),
   fun _ _ => (some ⟨[[0, 1]]⟩, some ⟨[[0], [0]]⟩),
   fun _ => ([7, 9], [[3], [4]])⟩

/-- Concrete fresh topology state used by the witnesses. -/
def wS : Topology :=
  ⟨2,
   fun a b =>
     if a = 2 ∧ b = 0 then some wAdj
     else if a = 0 ∧ b = 0 then some ⟨[[0]]⟩ else none,
   fun _ => none, none, none, none⟩

/-- Concrete geometry used by the witnesses. -/
def wGeo : Geometry := ⟨2, ⟨[[0], [1]]⟩, [[1, 2, 3], [4, 5, 6]]⟩

theorem C6_create_entities_idempotent_witness :
    0 < wS.dim
    ∧ wS.conn 1 0 = none
    ∧ wTc.entitiesCore ((wS.conn wS.dim 0).getD default) 1
        = (some ⟨[[0]]⟩, some ⟨[[0], [0]]⟩, wIm)
    ∧ (create_entities wTc wS 1).1 = Int.ofNat wIm.size_local
    ∧ (create_entities wTc wS 1).2.conn 1 0 = some ⟨[[0], [0]]⟩
    ∧ (create_entities wTc wS 1).2.conn wS.dim 1 = some ⟨[[0]]⟩
    ∧ (create_entities wTc wS 1).2.index_maps 1 = some wIm
    ∧ create_entities wTc (create_entities wTc wS 1).2 1
        = (-1, (create_entities wTc wS 1).2) := by
  have h := C6_create_entities_idempotent wTc wS 1 (by decide)
  obtain ⟨h2a, h2b, h2c, h2d⟩ := h.2.1 rfl ⟨[[0]]⟩ ⟨[[0], [0]]⟩ wIm rfl
  exact ⟨by decide, rfl, rfl, h2a, h2b, h2c, h2d,
    h.2.2 rfl (some ⟨[[0]]⟩) ⟨[[0], [0]]⟩ wIm rfl⟩

theorem C2_interior_coeff_packing_roundtrip_witness :
    (∀ j, j + 1 < ([0, 2, 3] : List Nat).length →
      ([0, 2, 3] : List Nat).getD j 0 ≤ ([0, 2, 3] : List Nat).getD (j + 1) 0)
    ∧ ([0, 2, 3] : List Nat).getLastD 0 ≤ ([10, 20, 30] : List Nat).length
    ∧ ([0, 2, 3] : List Nat).getLastD 0 ≤ ([40, 50, 60] : List Nat).length
    ∧ 0 + 1 < ([0, 2, 3] : List Nat).length
    ∧ 1 < ([0, 2, 3] : List Nat).getD (0 + 1) 0
        - ([0, 2, 3] : List Nat).getD 0 0
    ∧ ((packInteriorCoeffs (0 : Nat) [0, 2, 3] [10, 20, 30]
          [40, 50, 60]).length = 2 * ([0, 2, 3] : List Nat).getLastD 0
       ∧ (packInteriorCoeffs (0 : Nat) [0, 2, 3] [10, 20, 30]
            [40, 50, 60]).getD (2 * ([0, 2, 3] : List Nat).getD 0 0 + 1) 0
          = ([10, 20, 30] : List Nat).getD
              (([0, 2, 3] : List Nat).getD 0 0 + 1) 0
       ∧ (packInteriorCoeffs (0 : Nat) [0, 2, 3] [10, 20, 30]
            [40, 50, 60]).getD
              (([0, 2, 3] : List Nat).getD (0 + 1) 0
                + ([0, 2, 3] : List Nat).getD 0 0 + 1) 0
          = ([40, 50, 60] : List Nat).getD
              (([0, 2, 3] : List Nat).getD 0 0 + 1) 0) := by
  have hmono : ∀ j, j + 1 < ([0, 2, 3] : List Nat).length →
      ([0, 2, 3] : List Nat).getD j 0
        ≤ ([0, 2, 3] : List Nat).getD (j + 1) 0 := by
    intro j hj
    have hj2 : j < 2 := by
      simp only [List.length_cons, List.length_nil] at hj
      omega
    interval_cases j <;> decide
  exact ⟨hmono, by decide, by decide, by decide, by decide,
    C2_interior_coeff_packing_roundtrip 0 [0, 2, 3] [10, 20, 30] [40, 50, 60]
      0 1 hmono (by decide) (by decide) (by decide) (by decide)⟩

theorem C3_interior_facet_kernel_invocation_witness :
    (∀ f ∈ ([0] : List Nat), ((⟨[[0, 1]]⟩ : AdjacencyList).links f).length = 2
      ∧ f ∈ (⟨[[0], [0]]⟩ : AdjacencyList).links
          (((⟨[[0, 1]]⟩ : AdjacencyList).links f).getD 0 0)
      ∧ f ∈ (⟨[[0], [0]]⟩ : AdjacencyList).links
          (((⟨[[0, 1]]⟩ : AdjacencyList).links f).getD 1 0))
    ∧ (intLoop wGeo ⟨[[0, 1]]⟩ ⟨[[0], [0]]⟩ [[3], [4]] [7, 9]
          (fun v _ => v + 1) (⟨1, [[5], [6]]⟩ : CoeffArray Nat) [0, 1] []
          [0] 0
        = .ok (([0] : List Nat).foldl
            (fun w f => (fun v (_ : KernelArgs Nat) => v + 1) w
              (intArgsSpec wGeo ⟨[[0, 1]]⟩ ⟨[[0], [0]]⟩ [[3], [4]] [7, 9]
                (⟨1, [[5], [6]]⟩ : CoeffArray Nat) [0, 1] [] f)) 0)
       ∧ ∀ f ∈ ([0] : List Nat),
          (intArgsSpec wGeo ⟨[[0, 1]]⟩ ⟨[[0], [0]]⟩ [[3], [4]] [7, 9]
            (⟨1, [[5], [6]]⟩ : CoeffArray Nat) [0, 1] [] f).cellInfo
            = ([7, 9] : List Nat).getD
                (((⟨[[0, 1]]⟩ : AdjacencyList).links f).getD 0 0) 0) := by
  refine ⟨by decide, ?_⟩
  exact C3_interior_facet_kernel_invocation wGeo ⟨[[0, 1]]⟩ ⟨[[0], [0]]⟩
    [[3], [4]] [7, 9] (fun v _ => v + 1) ⟨1, [[5], [6]]⟩ [0, 1] [] [0] 0
    (by decide)

/-- Concrete Form (one cell integral, no constants) used by the C7
witness. -/
def wForm7 : Form Nat :=
  ⟨[], ⟨1, [[5], [6]]⟩, [0, 1], [⟨fun v _ => v + 1, [0]⟩], [], []⟩

theorem C7_lazy_build_equals_prebuild_witness :
    2 ≤ wS.dim
    ∧ wS.conn wS.dim 0 = some wAdj
    ∧ wS.conn 0 0 = some ⟨[[0]]⟩
    ∧ (wTc.entitiesCore wAdj (wS.dim - 1)).2.1 = some ⟨[[0], [0]]⟩
    ∧ wS.conn (wS.dim - 1) 0 = none
    ∧ wS.conn (wS.dim - 1) wS.dim = none
    ∧ wS.conn wS.dim (wS.dim - 1) = none
    ∧ wS.cell_perm_info = none
    ∧ wS.facet_perms = none
    ∧ Except.map Prod.fst (assemble_scalar wTc wForm7 ⟨wS, wGeo⟩)
        = Except.map Prod.fst
            (assemble_scalar wTc wForm7 ⟨prebuild wTc wS, wGeo⟩) :=
  ⟨by decide, rfl, rfl, rfl, rfl, rfl, rfl, rfl, rfl,
   C7_lazy_build_equals_prebuild wTc wForm7 wGeo wS wAdj ⟨[[0]]⟩
     ⟨[[0], [0]]⟩ (by decide) rfl rfl rfl rfl rfl rfl rfl rfl⟩

/-- Concrete mesh with an index map only at dimension 0, used by the C8
witness. -/
def wMesh8 : Mesh :=
  ⟨⟨2, fun _ _ => none,
    fun d => if d = 0 then some ⟨3, 1, 4, 1⟩ else none,
    none, none, none⟩, wGeo⟩

theorem C8_num_entities_witness :
    wMesh8.topology.index_maps 1 = none
    ∧ num_entities wMesh8 1 = .error (.notInitialized 1)
    ∧ wMesh8.topology.index_maps 0 = some ⟨3, 1, 4, 1⟩
    ∧ (⟨3, 1, 4, 1⟩ : IndexMap).block_size = 1
    ∧ num_entities wMesh8 0 = .ok ((3 : Nat) + 1) :=
  ⟨rfl, (C8_num_entities wMesh8 1).1 rfl, rfl, rfl,
   (C8_num_entities wMesh8 0).2 ⟨3, 1, 4, 1⟩ rfl rfl⟩

/-- Concrete mesh with zero cells, used by the C9 witness. -/
def wMesh9 : Mesh :=
  ⟨⟨2, fun _ _ => none,
    fun d => if d = 2 then some ⟨0, 0, 0, 1⟩ else none,
    none, none, none⟩, wGeo⟩

theorem C9_extremal_metrics_empty_mesh_witness :
    wMesh9.topology.index_maps wMesh9.topology.dim = some ⟨0, 0, 0, 1⟩
    ∧ (⟨0, 0, 0, 1⟩ : IndexMap).block_size = 1
    ∧ (0 : Nat) + 0 = 0
    ∧ (hmin (fun _ _ _ => 1) wMesh9 = .error .emptyMesh
       ∧ hmax (fun _ _ _ => 1) wMesh9 = .error .emptyMesh
       ∧ rmin (fun _ _ => 1) wMesh9 = .error .emptyMesh
       ∧ rmax (fun _ _ => 1) wMesh9 = .error .emptyMesh) :=
  ⟨rfl, rfl, rfl,
   (C9_extremal_metrics_empty_mesh (fun _ _ _ => 1) (fun _ _ => 1) wMesh9
     ⟨0, 0, 0, 1⟩ rfl rfl).1 rfl⟩

/-- Concrete Form with no integrals and all constants set, used by the C10
witness. -/
def wForm10 : Form Nat := ⟨[], ⟨0, []⟩, [], [], [], []⟩

theorem C10_empty_form_yields_zero_witness :
    wForm10.all_constants_set = true
    ∧ wForm10.cellIntegrals = []
    ∧ wForm10.extIntegrals = []
    ∧ wForm10.intIntegrals = []
    ∧ assemble_scalar wTc wForm10 wMesh8 = .ok ((0 : Nat), wMesh8) :=
  ⟨rfl, rfl, rfl, rfl,
   C10_empty_form_yields_zero wTc wForm10 wMesh8 rfl rfl rfl rfl⟩
